import Mathlib

/-!
Verification of the payment-instruction core
(`services/utils/payment-instruction-helpers.js` together with the
`parseInstruction` service it exports to).

The JavaScript core is shallowly embedded below:
* JS strings are Lean `String`s (operated on through their character lists);
  `toUpperCase` is modelled on the ASCII range, which covers every keyword
  and currency comparison the code performs.
* JS numbers that the code treats as integers (amounts, UTC millisecond
  values) are `Int`/`Nat`.  A snapshot balance field is a `JsBal`: an
  integer-valued finite number, `null` (not a number for `typeof`, but
  coerced to 0 by `+`/`-`), `NaN` (a number for `typeof`, absorbing in
  arithmetic and false in comparisons), or `undefined` (arithmetic yields
  NaN).  Balance arithmetic rounds its result to 53-bit double precision
  (`roundDouble`, round half to even), exactly as IEEE doubles do on
  integer values; balance values of other dynamic types (strings,
  booleans) and overflow past the double range (~1.8e308) are outside the
  embedding's domain.
* `Number(...)` applied to a decimal amount token is modelled exactly over
  `Rat` (`jsNumberOfString`); the only facts the code extracts from it are
  NaN-ness and the sign, which `Option Rat` captures.
* Snapshot entries may be `null`/malformed, hence `List (Option JsAccount)`
  with an `Option String` id and `Option Int` balance.
* The injected wall clock (`getTodayUtcDateValue`) is an explicit `todayVal`
  parameter, exactly as the spec demands for testability.
-/

namespace PaymentCore

/-- Character classification used throughout the source
(`charCodeAt` comparisons 48..57). -/
def isDigitCode (c : Char) : Bool :=
  48 ≤ c.toNat && c.toNat ≤ 57

/-- Base-10 value of a digit list, as accumulated by `parseInt` on an
all-digit string. -/
def digitsVal (cs : List Char) : Nat :=
  cs.foldl (fun acc c => acc * 10 + (c.toNat - 48)) 0

/-- ASCII model of JS `String.prototype.toUpperCase` (the source only ever
compares the result against ASCII keywords and currency codes). -/
def jsToUpper (s : String) : String :=
  String.mk (s.toList.map Char.toUpper)

/-- JS `x || null` on a string-valued field: the empty string is falsy. -/
def jsOrNull (s : String) : Option String :=
  if s = "" then none else some s

/-- JS `x || null` on a string-or-null value. -/
def optOrNull (o : Option String) : Option String :=
  match o with
  | some s => if s = "" then none else some s
  | none => none

/-! ### helpers from `services/utils/payment-instruction-helpers.js` -/

/-- `isPositiveIntegerString` (lines 5-12): non-empty and all ASCII digits. -/
def isPositiveIntegerString (value : String) : Bool :=
  value.toList ≠ [] && value.toList.all isDigitCode

/-- `isSupportedCurrency` (lines 14-22). -/
def isSupportedCurrency (code : String) : Bool :=
  code ≠ "" && ["NGN", "USD", "GBP", "GHS"].contains (jsToUpper code)

/-- `isValidAccountId` (lines 24-36): non-empty, characters restricted to
ASCII alphanumerics plus `-`, `.`, `@`. -/
def isValidAccountId (id : String) : Bool :=
  id ≠ "" && id.toList.all (fun c =>
    isDigitCode c || (65 ≤ c.toNat && c.toNat ≤ 90) || (97 ≤ c.toNat && c.toNat ≤ 122)
      || c = '-' || c = '.' || c = '@')

/-- `isAllDigits` (lines 38-45), on the character list of a substring. -/
def isAllDigitsL (cs : List Char) : Bool :=
  cs ≠ [] && cs.all isDigitCode

/-- `isLeapYear` (lines 47-49). -/
def isLeapYear (year : Nat) : Bool :=
  (year % 4 = 0 && year % 100 ≠ 0) || year % 400 = 0

/-- `getDaysInMonth` (lines 51-67); the source indexes a 12-entry array with
`month - 1` and is only called with `1 ≤ month ≤ 12`. -/
def getDaysInMonth (year month : Nat) : Nat :=
  match month with
  | 1 => 31
  | 2 => if isLeapYear year then 29 else 28
  | 3 => 31
  | 4 => 30
  | 5 => 31
  | 6 => 30
  | 7 => 31
  | 8 => 31
  | 9 => 30
  | 10 => 31
  | 11 => 30
  | 12 => 31
  | _ => 0

/-! ### the proleptic-Gregorian day count behind `Date.UTC`

`Date.UTC(y, m-1, d)` returns the millisecond timestamp of the given UTC
calendar day.  We realize it as an exact day count from year 0, times the
number of milliseconds in a day, shifted to the 1970-01-01 epoch.  JS's
legacy two-digit-year rule (years 0..99 are read as 1900..1999) is part of
`Date.UTC` and is modelled by `jsYear`. -/

/-- Leap years among the years `0, 1, ..., y-1`. -/
def leapsBefore (y : Nat) : Nat :=
  (y + 3) / 4 + (y + 399) / 400 - (y + 99) / 100

/-- Days in the years `0, 1, ..., y-1`. -/
def daysBeforeYear (y : Nat) : Nat :=
  365 * y + leapsBefore y

/-- Days in the months `1, ..., m-1` of year `y`. -/
def daysBeforeMonth (y : Nat) : Nat → Nat
  | 0 => 0
  | 1 => 0
  | m + 1 => daysBeforeMonth y m + getDaysInMonth y m

/-- Day index (day 0 = 0000-01-01) of calendar day `y-m-d`. -/
def dayNumber (y m d : Nat) : Nat :=
  daysBeforeYear y + daysBeforeMonth y m + (d - 1)

/-- JS `Date.UTC` two-digit-year adjustment. -/
def jsYear (y : Nat) : Nat :=
  if y ≤ 99 then y + 1900 else y

/-- `Date.UTC(y, m-1, d)`: milliseconds since the 1970-01-01 epoch. -/
def dateUtcMs (y m d : Nat) : Int :=
  ((dayNumber (jsYear y) m d : Int) - (dayNumber 1970 1 1 : Int)) * 86400000

/-- `parseUtcDateOnly` (lines 69-92): strict `YYYY-MM-DD` validation and
conversion to the `Date.UTC` value; `none` models `{ isValid: false }`. -/
def parseUtcDateOnly (dateStr : String) : Option Int :=
  let cs := dateStr.toList
  if cs.length ≠ 10 then none
  else if cs.getD 4 ' ' ≠ '-' ∨ cs.getD 7 ' ' ≠ '-' then none
  else
    let yearStr := cs.take 4
    let monthStr := (cs.drop 5).take 2
    let dayStr := (cs.drop 8).take 2
    if ¬ (isAllDigitsL yearStr ∧ isAllDigitsL monthStr ∧ isAllDigitsL dayStr) then none
    else
      let year := digitsVal yearStr
      let month := digitsVal monthStr
      let day := digitsVal dayStr
      if month < 1 ∨ month > 12 then none
      else if day < 1 ∨ day > getDaysInMonth year month then none
      else some (dateUtcMs year month day)

/-- `isWhitespace` (lines 126-128). -/
def isWhitespaceCh (ch : Char) : Bool :=
  ch = ' ' || ch = '\t' || ch = '\n' || ch = '\r' || ch = '\x0c' || ch = '\x0b'

/-- Collapsing loop of `normalizeWhitespace` (lines 109-123), on the
already-trimmed character list; the `Bool` is the `inSpace` flag. -/
def normCollapse : List Char → Bool → List Char
  | [], _ => []
  | c :: rest, inSpace =>
    if isWhitespaceCh c then
      if inSpace then normCollapse rest true else ' ' :: normCollapse rest true
    else c :: normCollapse rest false

/-- `normalizeWhitespace` (lines 100-124): trim both ends, collapse internal
whitespace runs to single spaces. -/
def normalizeWhitespace (s : String) : String :=
  let trimmed := ((s.toList.dropWhile isWhitespaceCh).reverse.dropWhile isWhitespaceCh).reverse
  String.mk (normCollapse trimmed false)

/-- `removeTrailingPunctuation` (lines 130-135). -/
def removeTrailingPunctuation (s : String) : String :=
  match s.toList.getLast? with
  | some last =>
    if last = '.' ∨ last = ',' ∨ last = '!' ∨ last = '?' then
      String.mk (s.toList.dropLast)
    else s
  | none => s

/-- JS `split(' ')` on a character list. -/
def splitSp : List Char → List (List Char)
  | [] => [[]]
  | c :: rest =>
    if c = ' ' then [] :: splitSp rest
    else
      match splitSp rest with
      | t :: ts => (c :: t) :: ts
      | [] => [[c]]

/-- `tokenizeNormalizedInstruction` (lines 138-148): split the normalized
string on spaces and drop empty pieces. -/
def tokenizeNormalizedInstruction (normalized : String) : List String :=
  if normalized = "" then []
  else ((splitSp normalized.toList).map String.mk).filter (· ≠ "")

/-! ### model of JS `Number(...)` on decimal tokens

Only reached on whitespace-free tokens that contain a `.`; `none` is NaN.
Overflow to `±Infinity` is modelled by the exact (huge) rational, which has
the same NaN-ness and sign — the only two facts the core reads off it. -/

/-- Decimal-literal part of JS string-to-number conversion. -/
def decParse (cs : List Char) : Option Rat :=
  let sgn : Int := match cs with
    | '-' :: _ => -1
    | _ => 1
  let cs1 := match cs with
    | '+' :: r => r
    | '-' :: r => r
    | _ => cs
  let ip := cs1.takeWhile isDigitCode
  let cs2 := cs1.dropWhile isDigitCode
  let fp := match cs2 with
    | '.' :: r => r.takeWhile isDigitCode
    | _ => []
  let cs3 := match cs2 with
    | '.' :: r => r.dropWhile isDigitCode
    | _ => cs2
  if ip.length + fp.length = 0 then none
  else
    let mantissa : Int := sgn * (digitsVal (ip ++ fp) : Int)
    match cs3 with
    | [] => some (mkRat mantissa (10 ^ fp.length))
    | e :: r =>
      if e = 'e' ∨ e = 'E' then
        let esgn : Int := match r with
          | '-' :: _ => -1
          | _ => 1
        let r1 := match r with
          | '+' :: rr => rr
          | '-' :: rr => rr
          | _ => r
        let ed := r1.takeWhile isDigitCode
        let r2 := r1.dropWhile isDigitCode
        if ed = [] ∨ r2 ≠ [] then none
        else
          let exp : Int := esgn * (digitsVal ed : Int)
          some (if 0 ≤ exp then mkRat (mantissa * 10 ^ exp.toNat) (10 ^ fp.length)
                else mkRat mantissa (10 ^ fp.length * 10 ^ (-exp).toNat))
      else none

/-- JS `Number(s)` for the strings the core feeds it (tokens, hence free of
whitespace). -/
def jsNumberOfString (s : String) : Option Rat :=
  decParse s.toList

/-! ### data model -/

/-- A balance value as it can arrive from the JSON body or be produced by
the balance applier: a finite integer-valued number, `null`, `NaN`, or
`undefined` (a missing field).  JSON input itself only yields the first
three dynamic shapes (`num`, `null`, absent key); `nan` arises from
arithmetic on `undef`. -/
inductive JsBal where
  | num (n : Int)
  | null
  | nan
  | undef
  deriving Repr, DecidableEq

/-- The number of low-order bits a 53-bit double mantissa cannot hold: the
least `e` with `m / 2^e < 2^53` (written with structural fuel so that the
kernel can evaluate it; `fuel = m` always suffices). -/
def excessBits (fuel m : Nat) : Nat :=
  match fuel with
  | 0 => 0
  | fuel' + 1 => if m < 2 ^ 53 then 0 else excessBits fuel' (m / 2) + 1

/-- Round an integer to the nearest value representable as an IEEE double
(53-bit mantissa, round half to even); integers of magnitude up to `2^53`
are exact.  Overflow past the double range (beyond ~1.8e308) is outside
the embedding's domain. -/
def roundDouble (x : Int) : Int :=
  if x.natAbs ≤ 2 ^ 53 then x
  else
    let m := x.natAbs
    let e := excessBits m m
    let q := m / 2 ^ e
    let r := m % 2 ^ e
    let half := 2 ^ (e - 1)
    let q2 := if r < half then q
      else if half < r then q + 1
      else if q % 2 = 0 then q else q + 1
    (if x < 0 then -1 else 1) * (q2 : Int) * (2 ^ e : Int)

/-- JS `balance + amount` on a balance value: `null` coerces to 0, `NaN`
and `undefined` give `NaN`, and a numeric result rounds to double
precision. -/
def jsAdd (b : JsBal) (amount : Nat) : JsBal :=
  match b with
  | .num n => .num (roundDouble (n + (amount : Int)))
  | .null => .num (roundDouble (0 + (amount : Int)))
  | .nan => .nan
  | .undef => .nan

/-- JS `balance - amount` on a balance value. -/
def jsSub (b : JsBal) (amount : Nat) : JsBal :=
  match b with
  | .num n => .num (roundDouble (n - (amount : Int)))
  | .null => .num (roundDouble (0 - (amount : Int)))
  | .nan => .nan
  | .undef => .nan

/-- The numeric value of a balance, when it is a (non-NaN) number. -/
def toNum : JsBal → Option Int
  | .num n => some n
  | _ => none

/-- A well-enough-formed snapshot entry; fields may still individually be of
the wrong dynamic type. -/
structure JsAccount where
  id : Option String
  balance : JsBal
  currency : Option String
  deriving Repr, DecidableEq

/-- An account record in the result's `accounts` list. -/
structure ResAccount where
  id : String
  balance_before : JsBal
  balance : JsBal
  currency : String
  deriving Repr, DecidableEq

/-- The uniform result shape every branch of the core returns. -/
structure Result where
  type : Option String
  amount : Option Int
  currency : Option String
  debit_account : Option String
  credit_account : Option String
  execute_by : Option String
  status : String
  status_reason : String
  status_code : String
  accounts : List ResAccount
  deriving Repr, DecidableEq

/-- Modelled from the spec: the message constants of the out-of-src
`@app/messages/payment` module.  Only `status_code` is contractual (§6-§7);
the `SY03` default wording appears verbatim in `endpoints/.../process.js`. -/
def MALFORMED_INSTRUCTION : String := "Malformed instruction: unable to parse keywords"

/-- Modelled from the spec: `PaymentMessages.MISSING_KEYWORD` (§7 table). -/
def MISSING_KEYWORD : String := "Missing required keyword"

/-- Modelled from the spec: `PaymentMessages.INVALID_KEYWORD_ORDER` (§7 table). -/
def INVALID_KEYWORD_ORDER : String := "Invalid keyword order"

/-- `makeSY03` (lines 184-195 of the service). -/
def makeSY03 : Result :=
  { type := none, amount := none, currency := none, debit_account := none
    credit_account := none, execute_by := none, status := "failed"
    status_reason := MALFORMED_INSTRUCTION, status_code := "SY03", accounts := [] }

/-- `makeSY01` (lines 198-209 of the service). -/
def makeSY01 : Result :=
  { type := none, amount := none, currency := none, debit_account := none
    credit_account := none, execute_by := none, status := "failed"
    status_reason := MISSING_KEYWORD, status_code := "SY01", accounts := [] }

/-- The raw fields a successful grammar match extracts (the spec's
`ParsedInstruction`). -/
structure Parsed where
  type : String
  amountToken : String
  currencyToken : String
  debitAccountId : String
  creditAccountId : String
  dateToken : Option String
  deriving Repr, DecidableEq

/-- Output of the field-validation stage. -/
structure Validated where
  type : String
  amount : Nat
  currencyUpper : String
  debitAccountId : String
  creditAccountId : String
  dateToken : Option String
  deriving Repr, DecidableEq

/-! ### grammar matcher (service lines 211-377) -/

/-- Grammar matcher: empty check, opener check, token counts, `ON` marker,
fixed keyword positions, field extraction.  Errors are the fully-formed
failure `Result`s the source returns from the corresponding branches. -/
def grammarMatch (tokens : List String) : Except Result Parsed :=
  if tokens.length = 0 then .error makeSY03
  else
    let upperTokens := tokens.map jsToUpper
    let first := upperTokens.getD 0 ""
    if first ≠ "DEBIT" ∧ first ≠ "CREDIT" then
      if first = "SEND" ∨ first = "TRANSFER" then .error makeSY01
      else .error makeSY03
    else
      let type := first
      let tokenCount := tokens.length
      if tokenCount < 11 then
        .error { type := none, amount := none, currency := none, debit_account := none
                 credit_account := none, execute_by := none, status := "failed"
                 status_reason := MISSING_KEYWORD, status_code := "SY01", accounts := [] }
      else if ¬ (tokenCount = 11) ∧ ¬ (tokenCount = 13) then
        .error { type := some type, amount := none, currency := none, debit_account := none
                 credit_account := none, execute_by := none, status := "failed"
                 status_reason := INVALID_KEYWORD_ORDER, status_code := "SY02", accounts := [] }
      else if tokenCount = 13 ∧ upperTokens.getD 11 "" ≠ "ON" then
        .error { type := some type, amount := none, currency := none, debit_account := none
                 credit_account := none, execute_by := none, status := "failed"
                 status_reason := INVALID_KEYWORD_ORDER, status_code := "SY02", accounts := [] }
      -- defensive position-existence check (unreachable once counts pass, but
      -- preserved from the source as a safety net)
      else if (tokens.get? 3).isNone ∨ (tokens.get? 4).isNone ∨ (tokens.get? 5).isNone
          ∨ (tokens.get? 6).isNone ∨ (tokens.get? 7).isNone ∨ (tokens.get? 8).isNone
          ∨ (tokens.get? 9).isNone ∨ (tokens.get? 10).isNone then
        .error { type := some type, amount := none, currency := none, debit_account := none
                 credit_account := none, execute_by := none, status := "failed"
                 status_reason := MISSING_KEYWORD, status_code := "SY01", accounts := [] }
      else if type = "DEBIT" then
        if upperTokens.getD 3 "" ≠ "FROM" ∨ upperTokens.getD 4 "" ≠ "ACCOUNT"
            ∨ upperTokens.getD 6 "" ≠ "FOR" ∨ upperTokens.getD 7 "" ≠ "CREDIT"
            ∨ upperTokens.getD 8 "" ≠ "TO" ∨ upperTokens.getD 9 "" ≠ "ACCOUNT" then
          .error { type := some type, amount := none, currency := none, debit_account := none
                   credit_account := none, execute_by := none, status := "failed"
                   status_reason := INVALID_KEYWORD_ORDER, status_code := "SY02", accounts := [] }
        else
          .ok { type := type
                amountToken := tokens.getD 1 ""
                currencyToken := tokens.getD 2 ""
                debitAccountId := removeTrailingPunctuation (tokens.getD 5 "")
                creditAccountId := removeTrailingPunctuation (tokens.getD 10 "")
                dateToken := if tokenCount = 13 then some (removeTrailingPunctuation (tokens.getD 12 "")) else none }
      else
        if upperTokens.getD 3 "" ≠ "TO" ∨ upperTokens.getD 4 "" ≠ "ACCOUNT"
            ∨ upperTokens.getD 6 "" ≠ "FOR" ∨ upperTokens.getD 7 "" ≠ "DEBIT"
            ∨ upperTokens.getD 8 "" ≠ "FROM" ∨ upperTokens.getD 9 "" ≠ "ACCOUNT" then
          .error { type := some type, amount := none, currency := none, debit_account := none
                   credit_account := none, execute_by := none, status := "failed"
                   status_reason := INVALID_KEYWORD_ORDER, status_code := "SY02", accounts := [] }
        else
          .ok { type := type
                amountToken := tokens.getD 1 ""
                currencyToken := tokens.getD 2 ""
                creditAccountId := removeTrailingPunctuation (tokens.getD 5 "")
                debitAccountId := removeTrailingPunctuation (tokens.getD 10 "")
                dateToken := if tokenCount = 13 then some (removeTrailingPunctuation (tokens.getD 12 "")) else none }

/-! ### field validators (service lines 379-463) -/

/-- The `AM02` guard: the amount token contains a decimal point and
`Number(...)` of it is not NaN and strictly positive. -/
def am02Hit (s : String) : Bool :=
  s.toList.contains '.' &&
    (match jsNumberOfString s with
     | some q => decide (0 < q)
     | none => false)

/-- Field validation chain: `AM02`, `AM01` (twice: shape then positivity of
the parsed integer), `CU02`, `AC04`, in the source's order. -/
def fieldValidate (p : Parsed) : Except Result Validated :=
  if am02Hit p.amountToken then
    .error { type := some p.type, amount := none, currency := none
             debit_account := jsOrNull p.debitAccountId
             credit_account := jsOrNull p.creditAccountId
             execute_by := optOrNull p.dateToken, status := "failed"
             status_reason := "Amount must be a whole number", status_code := "AM02", accounts := [] }
  else if ¬ isPositiveIntegerString p.amountToken then
    .error { type := some p.type, amount := none, currency := none
             debit_account := jsOrNull p.debitAccountId
             credit_account := jsOrNull p.creditAccountId
             execute_by := optOrNull p.dateToken, status := "failed"
             status_reason := "Amount must be a positive integer", status_code := "AM01", accounts := [] }
  else
    let amount := digitsVal p.amountToken.toList
    if amount = 0 then
      .error { type := some p.type, amount := none, currency := none
               debit_account := jsOrNull p.debitAccountId
               credit_account := jsOrNull p.creditAccountId
               execute_by := optOrNull p.dateToken, status := "failed"
               status_reason := "Amount must be a positive integer", status_code := "AM01", accounts := [] }
    else
      let currencyUpper : Option String :=
        if p.currencyToken = "" then none else some (jsToUpper p.currencyToken)
      if currencyUpper = none ∨ ¬ isSupportedCurrency (currencyUpper.getD "") then
        .error { type := some p.type, amount := some (amount : Int), currency := currencyUpper
                 debit_account := jsOrNull p.debitAccountId
                 credit_account := jsOrNull p.creditAccountId
                 execute_by := optOrNull p.dateToken, status := "failed"
                 status_reason := "Unsupported currency. Only NGN, USD, GBP, and GHS are supported"
                 status_code := "CU02", accounts := [] }
      else if ¬ isValidAccountId p.debitAccountId ∨ ¬ isValidAccountId p.creditAccountId then
        .error { type := some p.type, amount := some (amount : Int), currency := some (currencyUpper.getD "")
                 debit_account := some p.debitAccountId
                 credit_account := some p.creditAccountId
                 execute_by := optOrNull p.dateToken, status := "failed"
                 status_reason := "Invalid account ID format", status_code := "AC04", accounts := [] }
      else
        .ok { type := p.type, amount := amount, currencyUpper := currencyUpper.getD ""
              debitAccountId := p.debitAccountId, creditAccountId := p.creditAccountId
              dateToken := p.dateToken }

/-! ### transaction resolver and balance applier (service lines 465-624) -/

/-- The involved-accounts scan (lines 466-484): skip `null` entries and
entries whose id is not a string; collect snapshot-order shallow copies of
the entries matching either role. -/
def involvedAccounts (accounts : List (Option JsAccount)) (dId cId : String) : List ResAccount :=
  accounts.filterMap (fun oa =>
    match oa with
    | none => none
    | some a =>
      match a.id with
      | none => none
      | some s =>
        if s = dId ∨ s = cId then
          some { id := s, balance := a.balance, balance_before := a.balance
                 currency := jsToUpper (a.currency.getD "") }
        else none)

/-- The `foundDebit` / `foundCredit` assignment inside the same scan: the
last valid entry whose id equals `idStr`. -/
def lastMatch (accounts : List (Option JsAccount)) (idStr : String) : Option JsAccount :=
  accounts.foldl (fun found oa =>
    match oa with
    | none => found
    | some a =>
      match a.id with
      | none => found
      | some s => if s = idStr then some a else found) none

/-- `typeof foundDebit.balance !== 'number' || foundDebit.balance < amount`:
`null` and `undefined` are not numbers; `NaN` is a number and every
comparison on it is false, so a `NaN` balance passes the funds check. -/
def insufficientFunds (bal : JsBal) (amount : Nat) : Bool :=
  match bal with
  | .num b => b < (amount : Int)
  | .nan => false
  | .null => true
  | .undef => true

/-- Display of a balance inside the `AC01` reason string (template-literal
interpolation). -/
def jsNumStr (bal : JsBal) : String :=
  match bal with
  | .num b => toString b
  | .null => "null"
  | .nan => "NaN"
  | .undef => "undefined" 

/-- The loop body of the balance applier (lines 580-593): copy one involved
record, debiting or crediting it when settlement is immediate. -/
def applyOne (isPending : Bool) (amount : Nat) (dId cId : String) (a : ResAccount) :
    ResAccount :=
  { id := a.id
    balance_before := a.balance_before
    balance :=
      if isPending = false then
        if a.id = dId ∧ a.id ≠ cId then jsSub a.balance amount
        else if a.id = cId ∧ a.id ≠ dId then jsAdd a.balance amount
        else a.balance
      else a.balance
    currency := jsToUpper a.currency }

/-- The balance applier (lines 577-594): mutate copies of the involved
accounts only for immediate settlement. -/
def applyBalances (isPending : Bool) (amount : Nat) (dId cId : String)
    (involved : List ResAccount) : List ResAccount :=
  involved.map (applyOne isPending amount dId cId)

/-- The final `AP01` / `AP00` response pair (lines 596-624). -/
def finalResult (v : Validated) (involved : List ResAccount) (isPending : Bool)
    (execBy : Option String) : Result :=
  if isPending then
    { type := some v.type, amount := some (v.amount : Int), currency := some v.currencyUpper
      debit_account := some v.debitAccountId, credit_account := some v.creditAccountId
      execute_by := execBy, status := "pending"
      status_reason := "Transaction scheduled for future execution", status_code := "AP01"
      accounts := applyBalances isPending v.amount v.debitAccountId v.creditAccountId involved }
  else
    { type := some v.type, amount := some (v.amount : Int), currency := some v.currencyUpper
      debit_account := some v.debitAccountId, credit_account := some v.creditAccountId
      execute_by := execBy, status := "successful"
      status_reason := "Transaction executed successfully", status_code := "AP00"
      accounts := applyBalances isPending v.amount v.debitAccountId v.creditAccountId involved }

/-- The transaction resolver (lines 465-624): existence, currency match,
same-account, funds, date validation, settlement decision. -/
def resolve (accounts : List (Option JsAccount)) (v : Validated) (todayVal : Int) : Result :=
  let involved := involvedAccounts accounts v.debitAccountId v.creditAccountId
  match lastMatch accounts v.debitAccountId, lastMatch accounts v.creditAccountId with
  | some fd, some fc =>
    let debitCurrency := jsToUpper (fd.currency.getD "")
    let creditCurrency := jsToUpper (fc.currency.getD "")
    if debitCurrency ≠ creditCurrency ∨ debitCurrency ≠ v.currencyUpper then
      { type := some v.type, amount := some (v.amount : Int), currency := some v.currencyUpper
        debit_account := some v.debitAccountId, credit_account := some v.creditAccountId
        execute_by := optOrNull v.dateToken, status := "failed"
        status_reason := "Account currency mismatch", status_code := "CU01", accounts := involved }
    else if v.debitAccountId = v.creditAccountId then
      { type := some v.type, amount := some (v.amount : Int), currency := some v.currencyUpper
        debit_account := some v.debitAccountId, credit_account := some v.creditAccountId
        execute_by := optOrNull v.dateToken, status := "failed"
        status_reason := "Debit and credit accounts cannot be the same", status_code := "AC02"
        accounts := involved }
    else if insufficientFunds fd.balance v.amount then
      { type := some v.type, amount := some (v.amount : Int), currency := some v.currencyUpper
        debit_account := some v.debitAccountId, credit_account := some v.creditAccountId
        execute_by := optOrNull v.dateToken, status := "failed"
        status_reason := "Insufficient funds in debit account " ++ v.debitAccountId ++ ": has "
          ++ jsNumStr fd.balance ++ " " ++ debitCurrency ++ ", needs "
          ++ toString v.amount ++ " " ++ debitCurrency
        status_code := "AC01", accounts := involved }
    else
      match optOrNull v.dateToken with
      | some ds =>
        match parseUtcDateOnly ds with
        | none =>
          { type := some v.type, amount := some (v.amount : Int), currency := some v.currencyUpper
            debit_account := some v.debitAccountId, credit_account := some v.creditAccountId
            execute_by := some ds, status := "failed"
            status_reason := "Invalid date format", status_code := "DT01", accounts := involved }
        | some val =>
          finalResult v involved (decide (todayVal < val)) (some ds)
      | none => finalResult v involved false none
  | _, _ =>
    { type := some v.type, amount := some (v.amount : Int), currency := some v.currencyUpper
      debit_account := some v.debitAccountId, credit_account := some v.creditAccountId
      execute_by := optOrNull v.dateToken, status := "failed"
      status_reason := "Account not found", status_code := "AC03", accounts := involved }

/-- The whole core, `parseInstruction` (service lines 182-625).  The
`serviceData` shape check (line 212) is discharged by the input types; the
wall clock is the explicit `todayVal` parameter. -/
def parseInstruction (accounts : List (Option JsAccount)) (instruction : String)
    (todayVal : Int) : Result :=
  match grammarMatch (tokenizeNormalizedInstruction (normalizeWhitespace instruction)) with
  | .error r => r
  | .ok p =>
    match fieldValidate p with
    | .error r => r
    | .ok v => resolve accounts v todayVal

/-! ### spec-side definitions

These are written from the specification's wording, to be compared with the
source-derived functions above (refinement direction of the claims). -/

/-- Spec wording of the Gregorian leap rule: divisible by 4 and (not
divisible by 100 or divisible by 400). -/
def specLeap (y : Nat) : Bool :=
  decide (y % 4 = 0 ∧ (¬ (y % 100 = 0) ∨ y % 400 = 0))

/-- Spec wording of a month's length. -/
def specMonthLen (y m : Nat) : Nat :=
  match m with
  | 1 => 31
  | 2 => if specLeap y then 29 else 28
  | 3 => 31
  | 4 => 30
  | 5 => 31
  | 6 => 30
  | 7 => 31
  | 8 => 31
  | 9 => 30
  | 10 => 31
  | 11 => 30
  | 12 => 31
  | _ => 0

/-- Two-digit decimal value. -/
def digit2 (a b : Char) : Nat :=
  (a.toNat - 48) * 10 + (b.toNat - 48)

/-- Four-digit decimal value. -/
def digit4 (a b c d : Char) : Nat :=
  (a.toNat - 48) * 1000 + (b.toNat - 48) * 100 + (c.toNat - 48) * 10 + (d.toNat - 48)

/-- Spec wording of strict `YYYY-MM-DD` calendar validity: exactly 10
characters, digits and dashes in fixed positions, month 1-12, day within
the month's length under the Gregorian leap rule. -/
def specValidDate (s : String) : Bool :=
  match s.toList with
  | [y1, y2, y3, y4, s1, m1, m2, s2, d1, d2] =>
    isDigitCode y1 && isDigitCode y2 && isDigitCode y3 && isDigitCode y4
      && decide (s1 = '-') && decide (s2 = '-')
      && isDigitCode m1 && isDigitCode m2 && isDigitCode d1 && isDigitCode d2
      && decide (1 ≤ digit2 m1 m2) && decide (digit2 m1 m2 ≤ 12)
      && decide (1 ≤ digit2 d1 d2)
      && decide (digit2 d1 d2 ≤ specMonthLen (digit4 y1 y2 y3 y4) (digit2 m1 m2))
  | _ => false

/-- The year digits of a 10-character date token. -/
def dateY (s : String) : Nat :=
  match s.toList with
  | [a, b, c, d, _, _, _, _, _, _] => digit4 a b c d
  | _ => 0

/-- The month digits of a 10-character date token. -/
def dateM (s : String) : Nat :=
  match s.toList with
  | [_, _, _, _, _, a, b, _, _, _] => digit2 a b
  | _ => 0

/-- The day digits of a 10-character date token. -/
def dateD (s : String) : Nat :=
  match s.toList with
  | [_, _, _, _, _, _, _, _, a, b] => digit2 a b
  | _ => 0

/-- Calendar day `(y, m, d)` is strictly later than calendar day
`(ty, tm, td)`. -/
def calLaterB (y m d ty tm td : Nat) : Bool :=
  decide (ty < y ∨ (ty = y ∧ (tm < m ∨ (tm = m ∧ td < d))))

/-- NaN-propagating addition of possibly-non-numeric balances. -/
def addO : Option Int → Option Int → Option Int
  | some x, some y => some (x + y)
  | _, _ => none

/-- NaN-propagating sum of a list of balances: defined (as an integer) only
when every balance is a plain number. -/
def balSum (l : List JsBal) : Option Int :=
  l.foldr (fun b acc => addO (toNum b) acc) (some 0)

/-- The ids of the snapshot entries the scan does not skip. -/
def validIds (accounts : List (Option JsAccount)) : List String :=
  accounts.filterMap (fun oa => oa.bind (fun a => a.id))

end PaymentCore

namespace PaymentCore

/-! ### general lemmas about the pipeline -/

/-- A grammar-stage failure surfaces unchanged as the core's result. -/
theorem parse_of_grammar_error {instr : String} {r : Result}
    (accounts : List (Option JsAccount)) (todayVal : Int)
    (h : grammarMatch (tokenizeNormalizedInstruction (normalizeWhitespace instr)) = .error r) :
    parseInstruction accounts instr todayVal = r := by
  unfold parseInstruction
  rw [h]

/-- A field-validation failure surfaces unchanged as the core's result. -/
theorem parse_of_field_error {instr : String} {p : Parsed} {r : Result}
    (accounts : List (Option JsAccount)) (todayVal : Int)
    (hg : grammarMatch (tokenizeNormalizedInstruction (normalizeWhitespace instr)) = .ok p)
    (hf : fieldValidate p = .error r) :
    parseInstruction accounts instr todayVal = r := by
  unfold parseInstruction
  rw [hg]
  dsimp only
  rw [hf]

/-- When both early stages succeed the core's result is the resolver's. -/
theorem parse_of_stages_ok {instr : String} {p : Parsed} {v : Validated}
    (accounts : List (Option JsAccount)) (todayVal : Int)
    (hg : grammarMatch (tokenizeNormalizedInstruction (normalizeWhitespace instr)) = .ok p)
    (hf : fieldValidate p = .ok v) :
    parseInstruction accounts instr todayVal = resolve accounts v todayVal := by
  unfold parseInstruction
  rw [hg]
  dsimp only
  rw [hf]

/-- Every grammar-stage failure carries a syntax status code. -/
theorem grammar_error_code {tokens : List String} {r : Result}
    (h : grammarMatch tokens = .error r) :
    r.status_code = "SY01" ∨ r.status_code = "SY02" ∨ r.status_code = "SY03" := by
  simp only [grammarMatch] at h
  repeat' split at h
  all_goals first
    | exact Except.noConfusion h
    | (injection h with h; subst h;
       first
         | exact Or.inl rfl
         | exact Or.inr (Or.inl rfl)
         | exact Or.inr (Or.inr rfl))

/-- Structure of every field-validation failure: empty accounts list,
failed status, determined type, and the progressively-determined
amount/currency fields. -/
theorem field_error_props {p : Parsed} {r : Result}
    (h : fieldValidate p = .error r) :
    r.accounts = [] ∧ r.status = "failed" ∧ r.type = some p.type
      ∧ (r.status_code = "AM02" ∨ r.status_code = "AM01" ∨ r.status_code = "CU02"
          ∨ r.status_code = "AC04")
      ∧ ((r.status_code = "AM02" ∨ r.status_code = "AM01") → r.amount = none ∧ r.currency = none)
      ∧ (r.status_code = "CU02" → ∃ n, r.amount = some n)
      ∧ (r.status_code = "AC04" → (∃ n, r.amount = some n) ∧ ∃ c, r.currency = some c)
      ∧ (r.status_code = "AC04" → r.debit_account = some p.debitAccountId
          ∧ r.credit_account = some p.creditAccountId)
      ∧ (r.status_code ≠ "AC04" → r.debit_account = jsOrNull p.debitAccountId
          ∧ r.credit_account = jsOrNull p.creditAccountId)
      ∧ r.execute_by = optOrNull p.dateToken := by
  simp only [fieldValidate] at h
  repeat' split at h
  all_goals first
    | exact Except.noConfusion h
    | (injection h with h; subst h;
       refine ⟨rfl, rfl, rfl, by simp, ?_, ?_, ?_, ?_, ?_, rfl⟩ <;> simp)

/-- The resolver only ever produces one of its own seven status codes. -/
theorem resolve_code_mem (accounts : List (Option JsAccount)) (v : Validated) (todayVal : Int) :
    (resolve accounts v todayVal).status_code = "AC03"
    ∨ (resolve accounts v todayVal).status_code = "CU01"
    ∨ (resolve accounts v todayVal).status_code = "AC02"
    ∨ (resolve accounts v todayVal).status_code = "AC01"
    ∨ (resolve accounts v todayVal).status_code = "DT01"
    ∨ (resolve accounts v todayVal).status_code = "AP01"
    ∨ (resolve accounts v todayVal).status_code = "AP00" := by
  simp only [resolve, finalResult]
  repeat' split
  all_goals simp

/-- Every record in the involved-accounts list has its snapshot balance in
both balance fields, carries one of the two instruction ids, and stems from
a non-skipped snapshot entry with a string id. -/
theorem mem_involved_props {accounts : List (Option JsAccount)} {dId cId : String}
    {a : ResAccount} (ha : a ∈ involvedAccounts accounts dId cId) :
    a.balance_before = a.balance ∧ (a.id = dId ∨ a.id = cId)
      ∧ ∃ ja : JsAccount, some ja ∈ accounts ∧ ja.id = some a.id
          ∧ ja.balance = a.balance := by
  simp only [involvedAccounts, List.mem_filterMap] at ha
  obtain ⟨oa, hoa, hfa⟩ := ha
  cases oa with
  | none => exact absurd hfa (by simp)
  | some ja =>
    dsimp only at hfa
    cases hid : ja.id with
    | none => rw [hid] at hfa; exact absurd hfa (by simp)
    | some s =>
      rw [hid] at hfa
      dsimp only at hfa
      by_cases hpred : s = dId ∨ s = cId
      · rw [if_pos hpred] at hfa
        injection hfa with hfa
        subst hfa
        exact ⟨rfl, hpred, ja, hoa, hid, rfl⟩
      · rw [if_neg hpred] at hfa
        exact absurd hfa (by simp)

/-- On the pending path the balance applier copies balances unchanged (and
on any path it preserves `balance_before` and the ids). -/
theorem mem_applyBalances {x : ResAccount} {p : Bool} {am : Nat} {dId cId : String}
    {l : List ResAccount} (hx : x ∈ applyBalances p am dId cId l) :
    ∃ a ∈ l, x.id = a.id ∧ x.balance_before = a.balance_before
      ∧ (p = true → x.balance = a.balance) := by
  simp only [applyBalances, List.mem_map] at hx
  obtain ⟨a, ha, hax⟩ := hx
  subst hax
  refine ⟨a, ha, rfl, rfl, fun hp => ?_⟩
  subst hp
  simp [applyOne]

/-- A non-`AP00` outcome of `finalResult` leaves every account's balance at
its `balance_before`, provided the incoming involved list is unmutated. -/
theorem finalResult_unchanged {v : Validated} {inv : List ResAccount} {pend : Bool}
    {e : Option String} (h : (finalResult v inv pend e).status_code ≠ "AP00")
    (hinv : ∀ a ∈ inv, a.balance_before = a.balance) :
    ∀ a ∈ (finalResult v inv pend e).accounts, a.balance = a.balance_before := by
  cases pend with
  | false => exact absurd rfl h
  | true =>
    intro a ha
    dsimp only [finalResult] at ha
    obtain ⟨b, hb, -, hbef, hbal⟩ := mem_applyBalances ha
    rw [hbal rfl, hbef]
    exact (hinv b hb).symm

/-- Any resolver outcome other than `AP00` carries only unmutated account
records. -/
theorem resolve_ne_ap00_unchanged {accounts : List (Option JsAccount)} {v : Validated}
    {t : Int} {r : Result} (hr : resolve accounts v t = r)
    (h : r.status_code ≠ "AP00") :
    ∀ a ∈ r.accounts, a.balance = a.balance_before := by
  simp only [resolve] at hr
  repeat' split at hr
  all_goals subst hr
  all_goals first
    | (exact finalResult_unchanged h (fun a ha => (mem_involved_props ha).1))
    | (intro a ha; exact ((mem_involved_props ha).1).symm)

/-! ### C2: pending non-mutation -/

/-- C2: for every input on which the core returns an `AP01` (pending)
result, every account record in the result's accounts list has `balance`
equal to `balance_before`; no balance is mutated on the pending path. -/
theorem C2_pending_non_mutation (accounts : List (Option JsAccount)) (instr : String)
    (todayVal : Int)
    (h : (parseInstruction accounts instr todayVal).status_code = "AP01") :
    ∀ a ∈ (parseInstruction accounts instr todayVal).accounts,
      a.balance = a.balance_before := by
  cases hg : grammarMatch (tokenizeNormalizedInstruction (normalizeWhitespace instr)) with
  | error r =>
    have hp := parse_of_grammar_error accounts todayVal hg
    rw [hp] at h ⊢
    rcases grammar_error_code hg with h1 | h1 | h1 <;> rw [h1] at h <;>
      exact absurd h (by decide)
  | ok p =>
    cases hf : fieldValidate p with
    | error r =>
      have hp := parse_of_field_error accounts todayVal hg hf
      rw [hp] at h ⊢
      obtain ⟨-, -, -, hc, -⟩ := field_error_props hf
      rcases hc with h1 | h1 | h1 | h1 <;> rw [h1] at h <;> exact absurd h (by decide)
    | ok v =>
      have hp := parse_of_stages_ok accounts todayVal hg hf
      rw [hp] at h ⊢
      refine resolve_ne_ap00_unchanged rfl ?_
      intro he
      rw [he] at h
      exact absurd h (by decide)

/-- Concrete pending input for the C2 witness. -/
def c2wAccounts : List (Option JsAccount) :=
  [some { id := some "a", balance := JsBal.num 100, currency := some "USD" },
   some { id := some "b", balance := JsBal.num 0, currency := some "USD" }]

/-- Concrete pending instruction for the C2 witness. -/
def c2wInstr : String :=
  "DEBIT 50 USD FROM ACCOUNT a FOR CREDIT TO ACCOUNT b ON 2100-01-01"

/-- Injected clock for the C2 witness: 2026-10-11. -/
def c2wToday : Int := dateUtcMs 2026 10 11

theorem C2_witness :
    (parseInstruction c2wAccounts c2wInstr c2wToday).accounts.map (fun a => a.balance)
      = (parseInstruction c2wAccounts c2wInstr c2wToday).accounts.map
          (fun a => a.balance_before) :=
  List.map_congr_left (C2_pending_non_mutation c2wAccounts c2wInstr c2wToday (by decide))

/-! ### C9: field-validation failures carry an empty accounts list -/

/-- C9 as amended: every failure produced by the field-validation stage
(`AM02`, `AM01`, `CU02`, `AC04`) carries an empty accounts list, a failed
status and a determined `type`; the fields not yet determined at the point
of failure are null (`amount`/`currency` on the amount failures), the
fields already determined are populated (`amount` from `CU02` on,
`currency` from `AC04` on), and the account ids and date extracted by the
grammar stage are populated except that a value that is empty after
trailing-punctuation stripping (or an absent date) is nulled by the code's
`|| null` — the `AC04` failure alone carries the ids verbatim. -/
theorem C9_amended_field_failure_shape (accounts : List (Option JsAccount)) (instr : String)
    (todayVal : Int) (r : Result)
    (hr : parseInstruction accounts instr todayVal = r)
    (hc : r.status_code = "AM02" ∨ r.status_code = "AM01" ∨ r.status_code = "CU02"
        ∨ r.status_code = "AC04") :
    r.accounts = [] ∧ r.status = "failed" ∧ r.type ≠ none
      ∧ ((r.status_code = "AM02" ∨ r.status_code = "AM01") →
          r.amount = none ∧ r.currency = none)
      ∧ (r.status_code = "CU02" → ∃ n, r.amount = some n)
      ∧ (r.status_code = "AC04" → (∃ n, r.amount = some n) ∧ ∃ c, r.currency = some c)
      ∧ ∃ p : Parsed,
          grammarMatch (tokenizeNormalizedInstruction (normalizeWhitespace instr)) = .ok p
          ∧ r.type = some p.type
          ∧ (r.status_code = "AC04" → r.debit_account = some p.debitAccountId
              ∧ r.credit_account = some p.creditAccountId)
          ∧ (r.status_code ≠ "AC04" → r.debit_account = jsOrNull p.debitAccountId
              ∧ r.credit_account = jsOrNull p.creditAccountId)
          ∧ r.execute_by = optOrNull p.dateToken := by
  cases hg : grammarMatch (tokenizeNormalizedInstruction (normalizeWhitespace instr)) with
  | error r0 =>
    rw [parse_of_grammar_error accounts todayVal hg] at hr
    subst hr
    rcases grammar_error_code hg with h1 | h1 | h1 <;>
      rcases hc with hc | hc | hc | hc <;> rw [h1] at hc <;> exact absurd hc (by decide)
  | ok p =>
    cases hf : fieldValidate p with
    | error r0 =>
      rw [parse_of_field_error accounts todayVal hg hf] at hr
      subst hr
      obtain ⟨h1, h2, h3, -, h5, h6, h7, h8, h9, h10⟩ := field_error_props hf
      exact ⟨h1, h2, by rw [h3]; simp, h5, h6, h7, p, rfl, h3, h8, h9, h10⟩
    | ok v =>
      rw [parse_of_stages_ok accounts todayVal hg hf] at hr
      subst hr
      rcases resolve_code_mem accounts v todayVal with h1 | h1 | h1 | h1 | h1 | h1 | h1 <;>
        rcases hc with hc | hc | hc | hc <;> rw [h1] at hc <;> exact absurd hc (by decide)

/-- Instruction whose debit id token strips to the empty string. -/
def c9xInstr : String := "DEBIT 0 USD FROM ACCOUNT . FOR CREDIT TO ACCOUNT b"

/-- C9 counterexample: on this input the grammar stage determines the debit
id — the token `.`, which trailing-punctuation stripping empties — and
field validation then fails on the zero amount with `AM01`; yet the
result's `debit_account` is null (the code writes `debitAccountId || null`
and the empty string is falsy), while `credit_account` is populated.  So
the claim's "the already-determined fields (... account ids ...) are
populated" fails on this input as stated. -/
theorem C9_counterexample :
    (parseInstruction [] c9xInstr 0).status_code = "AM01"
      ∧ (parseInstruction [] c9xInstr 0).debit_account = none
      ∧ (parseInstruction [] c9xInstr 0).credit_account = some "b" :=
  ⟨by rfl, by rfl, by rfl⟩

/-- Concrete `CU02` input for the C9 witness. -/
def c9wInstr : String := "DEBIT 50 XYZ FROM ACCOUNT a FOR CREDIT TO ACCOUNT b"

theorem C9_witness :
    (parseInstruction [] c9wInstr 0).accounts = []
      ∧ (parseInstruction [] c9wInstr 0).status = "failed"
      ∧ (parseInstruction [] c9wInstr 0).type ≠ none
      ∧ (((parseInstruction [] c9wInstr 0).status_code = "AM02"
            ∨ (parseInstruction [] c9wInstr 0).status_code = "AM01") →
          (parseInstruction [] c9wInstr 0).amount = none
            ∧ (parseInstruction [] c9wInstr 0).currency = none)
      ∧ ((parseInstruction [] c9wInstr 0).status_code = "CU02" →
          ∃ n, (parseInstruction [] c9wInstr 0).amount = some n)
      ∧ ((parseInstruction [] c9wInstr 0).status_code = "AC04" →
          (∃ n, (parseInstruction [] c9wInstr 0).amount = some n)
            ∧ ∃ c, (parseInstruction [] c9wInstr 0).currency = some c)
      ∧ ∃ p : Parsed,
          grammarMatch (tokenizeNormalizedInstruction (normalizeWhitespace c9wInstr)) = .ok p
          ∧ (parseInstruction [] c9wInstr 0).type = some p.type
          ∧ ((parseInstruction [] c9wInstr 0).status_code = "AC04" →
              (parseInstruction [] c9wInstr 0).debit_account = some p.debitAccountId
                ∧ (parseInstruction [] c9wInstr 0).credit_account = some p.creditAccountId)
          ∧ ((parseInstruction [] c9wInstr 0).status_code ≠ "AC04" →
              (parseInstruction [] c9wInstr 0).debit_account = jsOrNull p.debitAccountId
                ∧ (parseInstruction [] c9wInstr 0).credit_account = jsOrNull p.creditAccountId)
          ∧ (parseInstruction [] c9wInstr 0).execute_by = optOrNull p.dateToken :=
  C9_amended_field_failure_shape [] c9wInstr 0 (parseInstruction [] c9wInstr 0) rfl (by decide)

/-! ### C5: negative decimal amount precedence -/

/-- The parsed fields of the C5 instruction. -/
def c5parsed : Parsed :=
  { type := "DEBIT", amountToken := "-100.50", currencyToken := "USD",
    debitAccountId := "a", creditAccountId := "b", dateToken := none }

/-- Concrete `AM01` failure record produced on the C5 input. -/
def c5rec : Result :=
  { type := some "DEBIT", amount := none, currency := none, debit_account := some "a",
    credit_account := some "b", execute_by := none, status := "failed",
    status_reason := "Amount must be a positive integer", status_code := "AM01",
    accounts := [] }

/-- C5: the instruction `DEBIT -100.50 USD FROM ACCOUNT a FOR CREDIT TO
ACCOUNT b` yields `AM01`, never `AM02`, for every accounts snapshot and
clock: the decimal-rejection path only fires on amounts whose numeric value
is positive, so the negative decimal falls through to the positive-integer
check. -/
theorem C5_negative_decimal_is_am01 (accounts : List (Option JsAccount)) (todayVal : Int) :
    (parseInstruction accounts "DEBIT -100.50 USD FROM ACCOUNT a FOR CREDIT TO ACCOUNT b"
        todayVal).status_code = "AM01"
      ∧ (parseInstruction accounts "DEBIT -100.50 USD FROM ACCOUNT a FOR CREDIT TO ACCOUNT b"
          todayVal).status_code ≠ "AM02" := by
  have hg : grammarMatch (tokenizeNormalizedInstruction (normalizeWhitespace
      "DEBIT -100.50 USD FROM ACCOUNT a FOR CREDIT TO ACCOUNT b")) = .ok c5parsed := by
    rfl
  have hf : fieldValidate c5parsed = .error c5rec := by
    rfl
  rw [parse_of_field_error accounts todayVal hg hf]
  exact ⟨rfl, by decide⟩

/-! ### C7 and C8: grammar-stage status codes -/

/-- The uppercased view of an optional token. -/
theorem map_getD_upper (o : Option String) :
    (o.map jsToUpper).getD "" = jsToUpper (o.getD "") := by
  cases o with
  | none => simp [jsToUpper]
  | some s => simp

/-- C7: for every instruction whose first token uppercases to `DEBIT` or
`CREDIT`: fewer than 11 tokens is `SY01`; a count that is neither 11 nor 13
is `SY02`; and 13 tokens whose token at index 11 does not uppercase to `ON`
is `SY02`. -/
theorem C7_token_count_codes (accounts : List (Option JsAccount)) (instr : String)
    (todayVal : Int) (t0 : String) (rest : List String)
    (htok : tokenizeNormalizedInstruction (normalizeWhitespace instr) = t0 :: rest)
    (hfirst : jsToUpper t0 = "DEBIT" ∨ jsToUpper t0 = "CREDIT") :
    ((t0 :: rest).length < 11 →
        (parseInstruction accounts instr todayVal).status_code = "SY01")
      ∧ (11 ≤ (t0 :: rest).length → (t0 :: rest).length ≠ 11 → (t0 :: rest).length ≠ 13 →
          (parseInstruction accounts instr todayVal).status_code = "SY02")
      ∧ ((t0 :: rest).length = 13 → jsToUpper ((t0 :: rest).getD 11 "") ≠ "ON" →
          (parseInstruction accounts instr todayVal).status_code = "SY02") := by
  unfold parseInstruction
  rw [htok]
  refine ⟨fun hlen => ?_, fun hge h11 h13 => ?_, fun hlen hon => ?_⟩
  · simp only [List.length_cons] at hlen
    rcases hfirst with hf | hf <;>
      simp [grammarMatch, hf, hlen]
  · simp only [List.length_cons] at hge h11 h13
    have ha : ¬ rest.length + 1 < 11 := by omega
    have hb : ¬ rest.length = 10 := by omega
    have hc2 : ¬ rest.length = 12 := by omega
    rcases hfirst with hf | hf <;>
      simp [grammarMatch, hf, ha, hb, hc2]
  · simp only [List.length_cons] at hlen
    have h12 : rest.length = 12 := by omega
    simp only [List.getD_eq_getElem?_getD, List.getElem?_cons_succ] at hon
    rw [List.getElem?_eq_getElem (by omega)] at hon
    simp only [Option.getD_some] at hon
    rcases hfirst with hf | hf <;>
      simp [grammarMatch, hf, h12, map_getD_upper, hon]

/-- C8: an instruction whose (non-empty) token sequence starts with a token
that uppercases to neither `DEBIT` nor `CREDIT` yields a fully-formed failed
result: `SY01` for the recognized openers `SEND`/`TRANSFER`, `SY03` for any
other opener; an empty or whitespace-only instruction (empty token
sequence) yields `SY03`. -/
theorem C8_unrecognized_opener (accounts : List (Option JsAccount)) (instr : String)
    (todayVal : Int) :
    (tokenizeNormalizedInstruction (normalizeWhitespace instr) = [] →
        (parseInstruction accounts instr todayVal).status_code = "SY03"
          ∧ (parseInstruction accounts instr todayVal).status = "failed")
      ∧ (∀ t0 rest, tokenizeNormalizedInstruction (normalizeWhitespace instr) = t0 :: rest →
          jsToUpper t0 ≠ "DEBIT" → jsToUpper t0 ≠ "CREDIT" →
          ((jsToUpper t0 = "SEND" ∨ jsToUpper t0 = "TRANSFER" →
              (parseInstruction accounts instr todayVal).status_code = "SY01"
                ∧ (parseInstruction accounts instr todayVal).status = "failed")
            ∧ (jsToUpper t0 ≠ "SEND" → jsToUpper t0 ≠ "TRANSFER" →
                (parseInstruction accounts instr todayVal).status_code = "SY03"
                  ∧ (parseInstruction accounts instr todayVal).status = "failed"))) := by
  constructor
  · intro htok
    unfold parseInstruction
    rw [htok]
    simp [grammarMatch, makeSY03]
  · intro t0 rest htok hd hc
    unfold parseInstruction
    rw [htok]
    constructor
    · intro hst
      rcases hst with hs | hs <;>
        simp [grammarMatch, hs, makeSY01]
    · intro hs ht
      simp [grammarMatch, hd, hc, hs, ht, makeSY03]

/-- Concrete inputs for the C7 witness: 3 tokens, 12 tokens, and 13 tokens
with a bad date-clause marker. -/
def c7wShort : String := "DEBIt 1 2"

/-- 12-token instruction for the C7 witness. -/
def c7wTwelve : String := "credit a b c d e f g h i j k"

/-- 13-token instruction with marker `AT` instead of `ON`. -/
def c7wBadOn : String := "DEBIT 50 USD FROM ACCOUNT a FOR CREDIT TO ACCOUNT b AT 2100-01-01"

theorem C7_witness :
    (parseInstruction [] c7wShort 0).status_code = "SY01"
      ∧ (parseInstruction [] c7wTwelve 0).status_code = "SY02"
      ∧ (parseInstruction [] c7wBadOn 0).status_code = "SY02" :=
  ⟨(C7_token_count_codes [] c7wShort 0 "DEBIt" ["1", "2"] (by rfl)
      (by decide)).1 (by decide),
   (C7_token_count_codes [] c7wTwelve 0 "credit"
      ["a", "b", "c", "d", "e", "f", "g", "h", "i", "j", "k"] (by rfl)
      (by decide)).2.1 (by decide) (by decide) (by decide),
   (C7_token_count_codes [] c7wBadOn 0 "DEBIT"
      ["50", "USD", "FROM", "ACCOUNT", "a", "FOR", "CREDIT", "TO", "ACCOUNT", "b", "AT",
       "2100-01-01"] (by rfl) (by decide)).2.2 (by decide) (by decide)⟩

theorem C8_witness :
    (parseInstruction [] "SEND 100 USD TO ACCOUNT b" 0).status_code = "SY01"
      ∧ (parseInstruction [] "hello world" 0).status_code = "SY03"
      ∧ (parseInstruction [] "   " 0).status_code = "SY03" :=
  ⟨(((C8_unrecognized_opener [] "SEND 100 USD TO ACCOUNT b" 0).2 "SEND"
      ["100", "USD", "TO", "ACCOUNT", "b"] (by rfl) (by decide) (by decide)).1
      (Or.inl (by decide))).1,
   (((C8_unrecognized_opener [] "hello world" 0).2 "hello" ["world"] (by rfl)
      (by decide) (by decide)).2 (by decide) (by decide)).1,
   ((C8_unrecognized_opener [] "   " 0).1 (by rfl)).1⟩

/-! ### C10: malformed snapshot entries are skipped -/

/-- Grammar-stage failures carry an empty accounts list. -/
theorem grammar_error_accounts {tokens : List String} {r : Result}
    (h : grammarMatch tokens = .error r) : r.accounts = [] := by
  simp only [grammarMatch] at h
  repeat' split at h
  all_goals first
    | exact Except.noConfusion h
    | (injection h with h; subst h; rfl)

/-- Both final branches build their accounts with the balance applier. -/
theorem finalResult_accounts (v : Validated) (inv : List ResAccount) (p : Bool)
    (e : Option String) :
    (finalResult v inv p e).accounts
      = applyBalances p v.amount v.debitAccountId v.creditAccountId inv := by
  cases p <;> rfl

/-- If no valid snapshot entry carries the id, the scan finds nothing. -/
theorem lastMatch_of_no_match {accounts : List (Option JsAccount)} {idStr : String}
    (h : ∀ ja : JsAccount, some ja ∈ accounts → ∀ s, ja.id = some s → s ≠ idStr) :
    lastMatch accounts idStr = none := by
  unfold lastMatch
  induction accounts with
  | nil => rfl
  | cons oa rest ih =>
    rw [List.foldl_cons]
    have hrest : ∀ ja : JsAccount, some ja ∈ rest → ∀ s, ja.id = some s → s ≠ idStr :=
      fun ja hja => h ja (List.mem_cons_of_mem _ hja)
    cases oa with
    | none => exact ih hrest
    | some ja =>
      cases hid : ja.id with
      | none => simpa [hid] using ih hrest
      | some s =>
        have hs := h ja (List.mem_cons_self _ _) s hid
        simpa [hid, hs] using ih hrest

/-- If no valid snapshot entry carries either id, the involved list is
empty. -/
theorem involved_nil_of_no_match {accounts : List (Option JsAccount)} {dId cId : String}
    (h : ∀ ja : JsAccount, some ja ∈ accounts → ∀ s, ja.id = some s →
      ¬ (s = dId ∨ s = cId)) :
    involvedAccounts accounts dId cId = [] := by
  unfold involvedAccounts
  induction accounts with
  | nil => rfl
  | cons oa rest ih =>
    have hrest : ∀ ja : JsAccount, some ja ∈ rest → ∀ s, ja.id = some s →
        ¬ (s = dId ∨ s = cId) :=
      fun ja hja => h ja (List.mem_cons_of_mem _ hja)
    cases oa with
    | none => simpa using ih hrest
    | some ja =>
      cases hid : ja.id with
      | none => simpa [hid] using ih hrest
      | some s =>
        have hs := h ja (List.mem_cons_self _ _) s hid
        simpa [hid, hs] using ih hrest

/-- Every account record in any resolver result stems from a snapshot entry
that is non-null and has a string id. -/
theorem resolve_accounts_origin {accounts : List (Option JsAccount)} {v : Validated}
    {t : Int} {r : Result} (hr : resolve accounts v t = r) :
    ∀ a ∈ r.accounts, ∃ ja : JsAccount, some ja ∈ accounts ∧ ja.id = some a.id := by
  simp only [resolve] at hr
  repeat' split at hr
  all_goals subst hr
  all_goals intro a ha
  all_goals first
    | (obtain ⟨-, -, ja, hja, hjid, -⟩ := mem_involved_props ha
       exact ⟨ja, hja, hjid⟩)
    | (rw [finalResult_accounts] at ha
       obtain ⟨b, hb, hid, -, -⟩ := mem_applyBalances ha
       obtain ⟨-, -, ja, hja, hjid, -⟩ := mem_involved_props hb
       exact ⟨ja, hja, by rw [hjid, hid]⟩)

/-- C10: snapshot entries that are null or lack a string id are skipped:
no result account ever stems from one, and an instruction whose account ids
match only such entries is rejected with `AC03` (empty involved list), not
an exception. -/
theorem C10_malformed_entries_skipped (accounts : List (Option JsAccount)) (instr : String)
    (todayVal : Int) :
    (∀ a ∈ (parseInstruction accounts instr todayVal).accounts,
        ∃ ja : JsAccount, some ja ∈ accounts ∧ ja.id = some a.id)
      ∧ (∀ p v, grammarMatch (tokenizeNormalizedInstruction (normalizeWhitespace instr)) = .ok p →
          fieldValidate p = .ok v →
          (∀ ja : JsAccount, some ja ∈ accounts → ∀ s, ja.id = some s →
            ¬ (s = v.debitAccountId ∨ s = v.creditAccountId)) →
          (parseInstruction accounts instr todayVal).status_code = "AC03"
            ∧ (parseInstruction accounts instr todayVal).accounts = []) := by
  constructor
  · intro a ha
    cases hg : grammarMatch (tokenizeNormalizedInstruction (normalizeWhitespace instr)) with
    | error r0 =>
      rw [parse_of_grammar_error accounts todayVal hg, grammar_error_accounts hg] at ha
      exact absurd ha (by simp)
    | ok p =>
      cases hf : fieldValidate p with
      | error r0 =>
        rw [parse_of_field_error accounts todayVal hg hf, (field_error_props hf).1] at ha
        exact absurd ha (by simp)
      | ok v =>
        rw [parse_of_stages_ok accounts todayVal hg hf] at ha
        exact resolve_accounts_origin rfl a ha
  · intro p v hg hf h
    rw [parse_of_stages_ok accounts todayVal hg hf]
    have hd : lastMatch accounts v.debitAccountId = none :=
      lastMatch_of_no_match (fun ja hja s hs => fun he => h ja hja s hs (Or.inl he))
    have hc : lastMatch accounts v.creditAccountId = none :=
      lastMatch_of_no_match (fun ja hja s hs => fun he => h ja hja s hs (Or.inr he))
    have hinv := involved_nil_of_no_match h
    simp only [resolve, hd, hc, hinv]
    constructor <;> trivial

/-- Snapshot of only malformed entries for the C10 witness. -/
def c10wAccounts : List (Option JsAccount) :=
  [none, some { id := none, balance := JsBal.num 5, currency := some "USD" }]

/-- Instruction for the C10 witness. -/
def c10wInstr : String := "DEBIT 50 USD FROM ACCOUNT a FOR CREDIT TO ACCOUNT b"

/-- Parsed fields of the C10 witness instruction. -/
def c10parsed : Parsed :=
  { type := "DEBIT", amountToken := "50", currencyToken := "USD",
    debitAccountId := "a", creditAccountId := "b", dateToken := none }

/-- Validated fields of the C10 witness instruction. -/
def c10valid : Validated :=
  { type := "DEBIT", amount := 50, currencyUpper := "USD",
    debitAccountId := "a", creditAccountId := "b", dateToken := none }

theorem C10_witness :
    (parseInstruction c10wAccounts c10wInstr 0).status_code = "AC03"
      ∧ (parseInstruction c10wAccounts c10wInstr 0).accounts = [] :=
  (C10_malformed_entries_skipped c10wAccounts c10wInstr 0).2 c10parsed c10valid
    (by rfl) (by rfl)
    (by
      intro ja hja s hs
      simp only [c10wAccounts, List.mem_cons] at hja
      rcases hja with hja | hja | hja
      · exact absurd hja (by simp)
      · injection hja with hja
        subst hja
        exact absurd hs (by simp)
      · simp at hja)

/-! ### C3: funds check precedes the date check -/

/-- C3: when the grammar and field stages succeed, both accounts resolve,
currencies match and the ids differ, but the debit account's current
balance is below the amount (or not a number), the result is an `AC01`
failure with unmutated attached accounts — even when the instruction
carries a valid future date, i.e. it is never deferred to a pending `AP01`
result. -/
theorem C3_funds_before_date (accounts : List (Option JsAccount)) (instr : String)
    (todayVal : Int) (p : Parsed) (v : Validated) (fd fc : JsAccount)
    (hg : grammarMatch (tokenizeNormalizedInstruction (normalizeWhitespace instr)) = .ok p)
    (hf : fieldValidate p = .ok v)
    (hd : lastMatch accounts v.debitAccountId = some fd)
    (hc : lastMatch accounts v.creditAccountId = some fc)
    (hcur1 : jsToUpper (fd.currency.getD "") = jsToUpper (fc.currency.getD ""))
    (hcur2 : jsToUpper (fd.currency.getD "") = v.currencyUpper)
    (hne : v.debitAccountId ≠ v.creditAccountId)
    (_hfuture : ∃ ds val, v.dateToken = some ds ∧ ds ≠ ""
        ∧ parseUtcDateOnly ds = some val ∧ todayVal < val)
    (hshort : insufficientFunds fd.balance v.amount = true) :
    (parseInstruction accounts instr todayVal).status_code = "AC01"
      ∧ (parseInstruction accounts instr todayVal).status = "failed"
      ∧ (parseInstruction accounts instr todayVal).status_code ≠ "AP01"
      ∧ ∀ a ∈ (parseInstruction accounts instr todayVal).accounts,
          a.balance = a.balance_before := by
  rw [parse_of_stages_ok accounts todayVal hg hf]
  simp only [resolve, hd, hc]
  rw [if_neg (by push_neg; exact ⟨hcur1, hcur2⟩), if_neg hne, if_pos hshort]
  refine ⟨rfl, rfl, by simp, ?_⟩
  intro a ha
  exact ((mem_involved_props ha).1).symm

/-- Snapshot for the C3 witness: debit account short of funds. -/
def c3wAccounts : List (Option JsAccount) :=
  [some { id := some "a", balance := JsBal.num 10, currency := some "USD" },
   some { id := some "b", balance := JsBal.num 0, currency := some "USD" }]

/-- Future-dated instruction for the C3 witness. -/
def c3wInstr : String :=
  "DEBIT 50 USD FROM ACCOUNT a FOR CREDIT TO ACCOUNT b ON 2100-01-01"

/-- Parsed fields of the C3 witness instruction. -/
def c3parsed : Parsed :=
  { type := "DEBIT", amountToken := "50", currencyToken := "USD",
    debitAccountId := "a", creditAccountId := "b", dateToken := some "2100-01-01" }

/-- Validated fields of the C3 witness instruction. -/
def c3valid : Validated :=
  { type := "DEBIT", amount := 50, currencyUpper := "USD",
    debitAccountId := "a", creditAccountId := "b", dateToken := some "2100-01-01" }

/-- Debit account of the C3 witness. -/
def c3fd : JsAccount := { id := some "a", balance := JsBal.num 10, currency := some "USD" }

/-- Credit account of the C3 witness. -/
def c3fc : JsAccount := { id := some "b", balance := JsBal.num 0, currency := some "USD" }

theorem C3_witness :
    (parseInstruction c3wAccounts c3wInstr (dateUtcMs 2026 10 11)).status_code = "AC01"
      ∧ (parseInstruction c3wAccounts c3wInstr (dateUtcMs 2026 10 11)).status_code ≠ "AP01" := by
  have h := C3_funds_before_date c3wAccounts c3wInstr (dateUtcMs 2026 10 11) c3parsed c3valid
    c3fd c3fc (by rfl) (by rfl) (by rfl) (by rfl) (by rfl) (by rfl) (by decide)
    ⟨"2100-01-01", dateUtcMs 2100 1 1, rfl, by decide, by rfl, by decide⟩ (by decide)
  exact ⟨h.1, h.2.2.1⟩

/-! ### C4: same account for both roles -/

/-- Parsed fields of the C4 counterexample instruction (single id `a` in
both roles, grammatically well-formed, amount token `0`). -/
def c4xParsed : Parsed :=
  { type := "DEBIT", amountToken := "0", currencyToken := "USD",
    debitAccountId := "a", creditAccountId := "a", dateToken := none }

/-- Snapshot for the C4 counterexample. -/
def c4xAccounts : List (Option JsAccount) :=
  [some { id := some "a", balance := JsBal.num 100, currency := some "USD" }]

/-- C4 counterexample: a grammatically well-formed instruction that uses
the single account id `a` for both roles but carries the invalid amount
`0` is rejected as `AM01`, not `AC02` — the amount validity is checked
first, refuting "AC02 regardless of the validity of the amount or currency
fields". -/
theorem C4_counterexample :
    grammarMatch (tokenizeNormalizedInstruction (normalizeWhitespace
        "DEBIT 0 USD FROM ACCOUNT a FOR CREDIT TO ACCOUNT a")) = .ok c4xParsed
      ∧ c4xParsed.debitAccountId = c4xParsed.creditAccountId
      ∧ (parseInstruction c4xAccounts
          "DEBIT 0 USD FROM ACCOUNT a FOR CREDIT TO ACCOUNT a" 0).status_code = "AM01"
      ∧ (parseInstruction c4xAccounts
          "DEBIT 0 USD FROM ACCOUNT a FOR CREDIT TO ACCOUNT a" 0).status_code ≠ "AC02" :=
  ⟨by rfl, by rfl, by rfl, by decide⟩

/-- C4 as amended: when a single account id fills both roles of a
grammatically well-formed instruction *and* all earlier checks pass — the
amount and currency fields are valid, the id resolves in the snapshot, and
the account's currency matches the instruction currency — the result's
status code is `AC02`. -/
theorem C4_amended_same_account (accounts : List (Option JsAccount)) (instr : String)
    (todayVal : Int) (p : Parsed) (v : Validated) (fd : JsAccount)
    (hg : grammarMatch (tokenizeNormalizedInstruction (normalizeWhitespace instr)) = .ok p)
    (hf : fieldValidate p = .ok v)
    (heq : v.debitAccountId = v.creditAccountId)
    (hd : lastMatch accounts v.debitAccountId = some fd)
    (hcur : jsToUpper (fd.currency.getD "") = v.currencyUpper) :
    (parseInstruction accounts instr todayVal).status_code = "AC02"
      ∧ (parseInstruction accounts instr todayVal).status = "failed" := by
  rw [parse_of_stages_ok accounts todayVal hg hf]
  have hc : lastMatch accounts v.creditAccountId = some fd := by rw [← heq]; exact hd
  simp only [resolve, hd, hc]
  rw [if_neg (by push_neg; exact ⟨rfl, hcur⟩), if_pos heq]
  exact ⟨rfl, rfl⟩

/-- Snapshot for the C4 witness. -/
def c4wAccounts : List (Option JsAccount) :=
  [some { id := some "a", balance := JsBal.num 100, currency := some "USD" }]

/-- Instruction for the C4 witness: valid amount and currency, same id in
both roles. -/
def c4wInstr : String := "DEBIT 50 USD FROM ACCOUNT a FOR CREDIT TO ACCOUNT a"

/-- Parsed fields of the C4 witness instruction. -/
def c4parsed : Parsed :=
  { type := "DEBIT", amountToken := "50", currencyToken := "USD",
    debitAccountId := "a", creditAccountId := "a", dateToken := none }

/-- Validated fields of the C4 witness instruction. -/
def c4valid : Validated :=
  { type := "DEBIT", amount := 50, currencyUpper := "USD",
    debitAccountId := "a", creditAccountId := "a", dateToken := none }

/-- The resolved account of the C4 witness. -/
def c4fd : JsAccount := { id := some "a", balance := JsBal.num 100, currency := some "USD" }

theorem C4_witness :
    (parseInstruction c4wAccounts c4wInstr 0).status_code = "AC02"
      ∧ (parseInstruction c4wAccounts c4wInstr 0).status = "failed" :=
  C4_amended_same_account c4wAccounts c4wInstr 0 c4parsed c4valid c4fd
    (by rfl) (by rfl) (by rfl) (by rfl) (by rfl)

/-! ### C1: balance conservation -/

/-- `balSum` on a cons cell. -/
theorem balSum_cons (b : JsBal) (t : List JsBal) :
    balSum (b :: t) = addO (toNum b) (balSum t) := rfl

/-- Rounding to double precision is the identity up to `2^53`. -/
theorem roundDouble_id {x : Int} (h : x.natAbs ≤ 2 ^ 53) : roundDouble x = x := by
  unfold roundDouble
  rw [if_pos h]

/-- Crediting a numeric balance is exact integer addition while the result
stays in the exactly-representable range. -/
theorem jsAdd_num {n : Int} {am : Nat} (h : n.natAbs + am ≤ 2 ^ 53) :
    jsAdd (JsBal.num n) am = JsBal.num (n + (am : Int)) := by
  have hpow : (2 : Nat) ^ 53 = 9007199254740992 := by norm_num
  have h2 : (n + (am : Int)).natAbs ≤ 2 ^ 53 := by omega
  simp [jsAdd, roundDouble_id h2]

/-- Debiting a numeric balance is exact integer subtraction while the
result stays in the exactly-representable range. -/
theorem jsSub_num {n : Int} {am : Nat} (h : n.natAbs + am ≤ 2 ^ 53) :
    jsSub (JsBal.num n) am = JsBal.num (n - (am : Int)) := by
  have hpow : (2 : Nat) ^ 53 = 9007199254740992 := by norm_num
  have h2 : (n - (am : Int)).natAbs ≤ 2 ^ 53 := by omega
  simp [jsSub, roundDouble_id h2]

/-- NaN-propagating addition is associative. -/
theorem addO_assoc (a b k : Option Int) : addO (addO a b) k = addO a (addO b k) := by
  cases a <;> cases b <;> cases k <;> simp [addO, Int.add_assoc]

/-- The applier's record for an id matching neither role keeps its balance. -/
theorem applyOne_balance_other {am : Nat} {d c : String} {a : ResAccount}
    (hd : a.id ≠ d) (hc : a.id ≠ c) :
    (applyOne false am d c a).balance = a.balance := by
  simp [applyOne, hd, hc]

/-- The applier's record for the debit id loses the amount. -/
theorem applyOne_balance_debit {am : Nat} {d c : String} {a : ResAccount}
    (hxd : a.id = d) (hne : d ≠ c) :
    (applyOne false am d c a).balance = jsSub a.balance am := by
  have hxc : a.id ≠ c := by rw [hxd]; exact hne
  simp [applyOne, hxd, hxc]
  intro h
  exact absurd h hne

/-- The applier's record for the credit id gains the amount. -/
theorem applyOne_balance_credit {am : Nat} {d c : String} {a : ResAccount}
    (hxc : a.id = c) (hne : d ≠ c) :
    (applyOne false am d c a).balance = jsAdd a.balance am := by
  have hxd : a.id ≠ d := by rw [hxc]; exact (Ne.symm hne)
  simp [applyOne, hxd, hxc]
  intro h
  exact absurd h.symm hne

/-- The balance applier never changes `balance_before`. -/
theorem applyBalances_map_before (p : Bool) (am : Nat) (d c : String)
    (l : List ResAccount) :
    (applyBalances p am d c l).map (fun a => a.balance_before)
      = l.map (fun a => a.balance_before) := by
  simp [applyBalances, List.map_map]
  exact fun a _ => rfl

/-- The ids collected into the involved list are exactly the valid snapshot
ids matching either role, in order. -/
theorem involved_ids (accounts : List (Option JsAccount)) (d c : String) :
    (involvedAccounts accounts d c).map (fun a => a.id)
      = (validIds accounts).filter (fun s => decide (s = d ∨ s = c)) := by
  induction accounts with
  | nil => rfl
  | cons oa rest ih =>
    cases oa with
    | none =>
      simpa [involvedAccounts, validIds, List.filterMap_cons] using ih
    | some ja =>
      cases hid : ja.id with
      | none =>
        simpa [involvedAccounts, validIds, List.filterMap_cons, hid] using ih
      | some str =>
        by_cases hpred : str = d ∨ str = c
        · simpa [involvedAccounts, validIds, List.filterMap_cons, hid, hpred] using ih
        · simpa [involvedAccounts, validIds, List.filterMap_cons, hid, hpred] using ih

/-- A found account implies its id is among the valid snapshot ids. -/
theorem lastMatch_mem {accounts : List (Option JsAccount)} {idStr : String} {fd : JsAccount}
    (h : lastMatch accounts idStr = some fd) : idStr ∈ validIds accounts := by
  by_contra hmem
  have hnone : lastMatch accounts idStr = none :=
    lastMatch_of_no_match (fun ja hja str hs he =>
      hmem (by subst he; exact List.mem_filterMap.mpr ⟨some ja, hja, by simp [hs]⟩))
  rw [hnone] at h
  exact Option.noConfusion h

/-- Balances of a list containing neither role are untouched. -/
theorem applyBalances_none_mem (am : Nat) (d c : String) (l : List ResAccount)
    (hd : d ∉ l.map (fun a => a.id)) (hc : c ∉ l.map (fun a => a.id)) :
    (applyBalances false am d c l).map (fun a => a.balance)
      = l.map (fun a => a.balance) := by
  induction l with
  | nil => rfl
  | cons x rest ih =>
    simp only [List.map_cons, List.mem_cons, not_or] at hd hc
    simp only [applyBalances, List.map_cons] at ih ⊢
    rw [applyOne_balance_other (fun h => hd.1 h.symm) (fun h => hc.1 h.symm)]
    exact congrArg (List.cons x.balance) (ih hd.2 hc.2)

/-- With unique ids, numeric in-range balances and the debit id absent, the
applier adds the amount to the sum exactly once (through the unique credit
record). -/
theorem applyBalances_credit_only (am : Nat) (d c : String) (l : List ResAccount)
    (hne : d ≠ c) (hnodup : (l.map (fun a => a.id)).Nodup)
    (hc : c ∈ l.map (fun a => a.id)) (hd : d ∉ l.map (fun a => a.id))
    (hnum : ∀ x ∈ l, ∃ n : Int, x.balance = JsBal.num n ∧ n.natAbs + am ≤ 2 ^ 53) :
    balSum ((applyBalances false am d c l).map (fun a => a.balance))
      = addO (balSum (l.map (fun a => a.balance))) (some (am : Int)) := by
  induction l with
  | nil => simp at hc
  | cons x rest ih =>
    simp only [List.map_cons, List.mem_cons, not_or] at hc hd
    simp only [List.map_cons, List.nodup_cons] at hnodup
    simp only [applyBalances, List.map_cons, balSum_cons] at ih ⊢
    obtain ⟨n, hxb, hbound⟩ := hnum x (List.mem_cons_self x rest)
    by_cases hxc : x.id = c
    · rw [applyOne_balance_credit hxc hne]
      have hrestc : c ∉ rest.map (fun a => a.id) := by rw [← hxc]; exact hnodup.1
      have hrestd : d ∉ rest.map (fun a => a.id) := hd.2
      have hnm := applyBalances_none_mem am d c rest hrestd hrestc
      simp only [applyBalances] at hnm
      rw [hnm, hxb, jsAdd_num hbound]
      cases hs : balSum (rest.map (fun a => a.balance)) with
      | none => simp [addO, toNum]
      | some sv => simp [addO, toNum] <;> omega
    · have hcrest : c ∈ rest.map (fun a => a.id) :=
        hc.resolve_left (fun h => hxc h.symm)
      rw [applyOne_balance_other (fun h => hd.1 h.symm) hxc]
      rw [ih hnodup.2 hcrest hd.2 (fun y hy => hnum y (List.mem_cons_of_mem x hy))]
      exact (addO_assoc _ _ _).symm

/-- With unique ids, numeric in-range balances and the credit id absent,
the applier removes the amount from the sum exactly once (through the
unique debit record). -/
theorem applyBalances_debit_only (am : Nat) (d c : String) (l : List ResAccount)
    (hne : d ≠ c) (hnodup : (l.map (fun a => a.id)).Nodup)
    (hd : d ∈ l.map (fun a => a.id)) (hc : c ∉ l.map (fun a => a.id))
    (hnum : ∀ x ∈ l, ∃ n : Int, x.balance = JsBal.num n ∧ n.natAbs + am ≤ 2 ^ 53) :
    balSum ((applyBalances false am d c l).map (fun a => a.balance))
      = addO (balSum (l.map (fun a => a.balance))) (some (-(am : Int))) := by
  induction l with
  | nil => simp at hd
  | cons x rest ih =>
    simp only [List.map_cons, List.mem_cons, not_or] at hd hc
    simp only [List.map_cons, List.nodup_cons] at hnodup
    simp only [applyBalances, List.map_cons, balSum_cons] at ih ⊢
    obtain ⟨n, hxb, hbound⟩ := hnum x (List.mem_cons_self x rest)
    by_cases hxd : x.id = d
    · rw [applyOne_balance_debit hxd hne]
      have hrestd : d ∉ rest.map (fun a => a.id) := by rw [← hxd]; exact hnodup.1
      have hrestc : c ∉ rest.map (fun a => a.id) := hc.2
      have hnm := applyBalances_none_mem am d c rest hrestd hrestc
      simp only [applyBalances] at hnm
      rw [hnm, hxb, jsSub_num hbound]
      cases hs : balSum (rest.map (fun a => a.balance)) with
      | none => simp [addO, toNum]
      | some sv => simp [addO, toNum] <;> omega
    · have hdrest : d ∈ rest.map (fun a => a.id) :=
        hd.resolve_left (fun h => hxd h.symm)
      rw [applyOne_balance_other hxd (fun h => hc.1 h.symm)]
      rw [ih hnodup.2 hdrest hc.2 (fun y hy => hnum y (List.mem_cons_of_mem x hy))]
      exact (addO_assoc _ _ _).symm

/-- With unique ids, numeric balances in the exactly-representable range
and both roles present (and distinct), the applier conserves the
NaN-propagating sum of balances. -/
theorem applyBalances_sum_conserved (am : Nat) (d c : String) (l : List ResAccount)
    (hne : d ≠ c) (hnodup : (l.map (fun a => a.id)).Nodup)
    (hd : d ∈ l.map (fun a => a.id)) (hc : c ∈ l.map (fun a => a.id))
    (hnum : ∀ x ∈ l, ∃ n : Int, x.balance = JsBal.num n ∧ n.natAbs + am ≤ 2 ^ 53) :
    balSum ((applyBalances false am d c l).map (fun a => a.balance))
      = balSum (l.map (fun a => a.balance)) := by
  induction l with
  | nil => simp at hd
  | cons x rest ih =>
    simp only [List.map_cons, List.mem_cons] at hd hc
    simp only [List.map_cons, List.nodup_cons] at hnodup
    simp only [applyBalances, List.map_cons, balSum_cons] at ih ⊢
    obtain ⟨n, hxb, hbound⟩ := hnum x (List.mem_cons_self x rest)
    have hnumr := fun y hy => hnum y (List.mem_cons_of_mem x hy)
    by_cases hxd : x.id = d
    · rw [applyOne_balance_debit hxd hne]
      have hrestd : d ∉ rest.map (fun a => a.id) := by rw [← hxd]; exact hnodup.1
      have hrestc : c ∈ rest.map (fun a => a.id) :=
        hc.resolve_left (fun h => (Ne.symm hne) (h.trans hxd))
      have hco := applyBalances_credit_only am d c rest hne hnodup.2 hrestc hrestd hnumr
      simp only [applyBalances, balSum_cons] at hco
      rw [hco, hxb, jsSub_num hbound]
      cases hs : balSum (rest.map (fun a => a.balance)) with
      | none => simp [addO, toNum]
      | some sv => simp [addO, toNum] <;> omega
    · by_cases hxc : x.id = c
      · rw [applyOne_balance_credit hxc hne]
        have hrestc : c ∉ rest.map (fun a => a.id) := by rw [← hxc]; exact hnodup.1
        have hrestd : d ∈ rest.map (fun a => a.id) :=
          hd.resolve_left (fun h => hxd h.symm)
        have hdo := applyBalances_debit_only am d c rest hne hnodup.2 hrestd hrestc hnumr
        simp only [applyBalances, balSum_cons] at hdo
        rw [hdo, hxb, jsAdd_num hbound]
        cases hs : balSum (rest.map (fun a => a.balance)) with
        | none => simp [addO, toNum]
        | some sv => simp [addO, toNum] <;> omega
      · rw [applyOne_balance_other hxd hxc]
        rw [ih hnodup.2 (hd.resolve_left (fun h => hxd h.symm))
          (hc.resolve_left (fun h => hxc h.symm)) hnumr]

/-- The success/pending response carries the validated roles and amount. -/
theorem finalResult_fields (v : Validated) (inv : List ResAccount) (p : Bool)
    (e : Option String) :
    (finalResult v inv p e).debit_account = some v.debitAccountId
      ∧ (finalResult v inv p e).credit_account = some v.creditAccountId
      ∧ (finalResult v inv p e).amount = some ((v.amount : Int)) := by
  cases p <;> exact ⟨rfl, rfl, rfl⟩

/-- An `AP00` outcome of `finalResult` means settlement was immediate. -/
theorem finalResult_ap00 {v : Validated} {inv : List ResAccount} {pend : Bool}
    {e : Option String} (h : (finalResult v inv pend e).status_code = "AP00") :
    pend = false := by
  cases pend with
  | false => rfl
  | true => exact absurd h (by simp [finalResult])

/-- Inversion of an `AP00` resolver result: both accounts were found, the
ids differ, and the accounts list is the immediate-settlement application
over the involved list. -/
theorem resolve_ap00_props {accounts : List (Option JsAccount)} {v : Validated} {t : Int}
    {r : Result} (hr : resolve accounts v t = r) (hap : r.status_code = "AP00") :
    (∃ fd, lastMatch accounts v.debitAccountId = some fd)
      ∧ (∃ fc, lastMatch accounts v.creditAccountId = some fc)
      ∧ v.debitAccountId ≠ v.creditAccountId
      ∧ r.debit_account = some v.debitAccountId
      ∧ r.credit_account = some v.creditAccountId
      ∧ r.amount = some ((v.amount : Int))
      ∧ r.accounts = applyBalances false v.amount v.debitAccountId v.creditAccountId
          (involvedAccounts accounts v.debitAccountId v.creditAccountId) := by
  cases hd : lastMatch accounts v.debitAccountId with
  | none =>
    simp only [resolve, hd] at hr
    subst hr
    simp at hap
  | some fd =>
    cases hc : lastMatch accounts v.creditAccountId with
    | none =>
      simp only [resolve, hd, hc] at hr
      subst hr
      simp at hap
    | some fc =>
      simp only [resolve, hd, hc] at hr
      split at hr
      · subst hr; simp at hap
      · split at hr
        · subst hr; simp at hap
        · rename_i hne
          split at hr
          · subst hr; simp at hap
          · split at hr
            · split at hr
              · subst hr; simp at hap
              · subst hr
                have hp := finalResult_ap00 hap
                refine ⟨⟨fd, rfl⟩, ⟨fc, rfl⟩, hne, (finalResult_fields _ _ _ _).1,
                  (finalResult_fields _ _ _ _).2.1, (finalResult_fields _ _ _ _).2.2, ?_⟩
                rw [finalResult_accounts, hp]
            · subst hr
              refine ⟨⟨fd, rfl⟩, ⟨fc, rfl⟩, hne, (finalResult_fields _ _ _ _).1,
                (finalResult_fields _ _ _ _).2.1, (finalResult_fields _ _ _ _).2.2, ?_⟩
              rw [finalResult_accounts]

/-- C1 as amended: on every snapshot whose valid entries carry pairwise
distinct ids and whose entries matching the settled roles hold
integer-valued numeric balances within the exactly-representable double
range relative to the amount, any `AP00` result conserves the
(NaN-propagating) sum of balances: the sum of `balance` over the result
accounts equals the sum of their `balance_before`. -/
theorem C1_conservation_exact_regime (accounts : List (Option JsAccount)) (instr : String)
    (todayVal : Int) (am : Nat) (hnodup : (validIds accounts).Nodup)
    (hap : (parseInstruction accounts instr todayVal).status_code = "AP00")
    (ham : (parseInstruction accounts instr todayVal).amount = some ((am : Int)))
    (hnum : ∀ ja : JsAccount, some ja ∈ accounts → ∀ s : String, ja.id = some s →
        ((parseInstruction accounts instr todayVal).debit_account = some s
          ∨ (parseInstruction accounts instr todayVal).credit_account = some s) →
        ∃ n : Int, ja.balance = JsBal.num n ∧ n.natAbs + am ≤ 2 ^ 53) :
    balSum ((parseInstruction accounts instr todayVal).accounts.map (fun a => a.balance))
      = balSum ((parseInstruction accounts instr todayVal).accounts.map
          (fun a => a.balance_before)) := by
  cases hg : grammarMatch (tokenizeNormalizedInstruction (normalizeWhitespace instr)) with
  | error r0 =>
    rw [parse_of_grammar_error accounts todayVal hg] at hap ⊢
    rcases grammar_error_code hg with h1 | h1 | h1 <;> rw [h1] at hap <;>
      exact absurd hap (by decide)
  | ok p =>
    cases hf : fieldValidate p with
    | error r0 =>
      rw [parse_of_field_error accounts todayVal hg hf] at hap ⊢
      obtain ⟨-, -, -, hc4, -⟩ := field_error_props hf
      rcases hc4 with h1 | h1 | h1 | h1 <;> rw [h1] at hap <;> exact absurd hap (by decide)
    | ok v =>
      rw [parse_of_stages_ok accounts todayVal hg hf] at hap ham hnum ⊢
      obtain ⟨⟨fd, hd⟩, ⟨fc, hc⟩, hne, hdacc, hcacc, hamr, hacc⟩ :=
        resolve_ap00_props rfl hap
      rw [hamr] at ham
      have hameq : am = v.amount := by
        have := Option.some.inj ham
        exact_mod_cast this.symm
      rw [hacc]
      have hids := involved_ids accounts v.debitAccountId v.creditAccountId
      have hnd : ((involvedAccounts accounts v.debitAccountId v.creditAccountId).map
          (fun a => a.id)).Nodup := by
        rw [hids]; exact hnodup.filter _
      have hdm : v.debitAccountId ∈ (involvedAccounts accounts v.debitAccountId
          v.creditAccountId).map (fun a => a.id) := by
        rw [hids]; exact List.mem_filter.mpr ⟨lastMatch_mem hd, by simp⟩
      have hcm : v.creditAccountId ∈ (involvedAccounts accounts v.debitAccountId
          v.creditAccountId).map (fun a => a.id) := by
        rw [hids]; exact List.mem_filter.mpr ⟨lastMatch_mem hc, by simp⟩
      have hinvnum : ∀ x ∈ involvedAccounts accounts v.debitAccountId v.creditAccountId,
          ∃ n : Int, x.balance = JsBal.num n ∧ n.natAbs + v.amount ≤ 2 ^ 53 := by
        intro x hx
        obtain ⟨-, hrole, ja, hja, hjid, hjbal⟩ := mem_involved_props hx
        obtain ⟨n, hb, hbound⟩ := hnum ja hja x.id hjid
          (by rcases hrole with h | h
              · exact Or.inl (by rw [hdacc, h])
              · exact Or.inr (by rw [hcacc, h]))
        refine ⟨n, by rw [← hjbal]; exact hb, ?_⟩
        rw [← hameq]
        exact hbound
      rw [applyBalances_sum_conserved _ _ _ _ hne hnd hdm hcm hinvnum,
        applyBalances_map_before]
      congr 1
      exact List.map_congr_left (fun a ha => ((mem_involved_props ha).1).symm)

/-- Snapshot with a duplicated debit id for the C1 counterexample. -/
def c1xAccounts : List (Option JsAccount) :=
  [some { id := some "a", balance := JsBal.num 100, currency := some "USD" },
   some { id := some "a", balance := JsBal.num 100, currency := some "USD" },
   some { id := some "b", balance := JsBal.num 0, currency := some "USD" }]

/-- Snapshot with a `null` credit balance for the C1 counterexample. -/
def c1nAccounts : List (Option JsAccount) :=
  [some { id := some "a", balance := JsBal.num 100, currency := some "USD" },
   some { id := some "b", balance := JsBal.null, currency := some "USD" }]

/-- Snapshot with a credit balance at the edge of double precision
(`2^53`) for the C1 counterexample. -/
def c1rAccounts : List (Option JsAccount) :=
  [some { id := some "a", balance := JsBal.num 100, currency := some "USD" },
   some { id := some "b", balance := JsBal.num 9007199254740992, currency := some "USD" }]

/-- Instruction for the C1 counterexample. -/
def c1xInstr : String := "DEBIT 50 USD FROM ACCOUNT a FOR CREDIT TO ACCOUNT b"

/-- One-unit instruction for the precision-edge snapshot. -/
def c1rInstr : String := "DEBIT 1 USD FROM ACCOUNT a FOR CREDIT TO ACCOUNT b"

/-- C1 counterexample: three settled (`AP00`) runs on which the sum of
`balance` differs from the sum of `balance_before`, refuting the claim as
stated.  First, with the debit id `a` duplicated in the snapshot both
copies are debited while `b` is credited once (sums 150 vs 200).  Second,
with a `null` credit balance, JS coerces `null` to 0, so the credited
balance becomes the amount while the `balance_before` sum is not a number.
Third, with a credit balance of `2^53`, crediting 1 is lost to double
rounding (`2^53 + 1` rounds back to `2^53`), so the sums differ by the
debited unit. -/
theorem C1_counterexample :
    ((parseInstruction c1xAccounts c1xInstr 0).status_code = "AP00"
      ∧ balSum ((parseInstruction c1xAccounts c1xInstr 0).accounts.map
            (fun a => a.balance))
          ≠ balSum ((parseInstruction c1xAccounts c1xInstr 0).accounts.map
            (fun a => a.balance_before)))
    ∧ ((parseInstruction c1nAccounts c1xInstr 0).status_code = "AP00"
      ∧ balSum ((parseInstruction c1nAccounts c1xInstr 0).accounts.map
            (fun a => a.balance))
          ≠ balSum ((parseInstruction c1nAccounts c1xInstr 0).accounts.map
            (fun a => a.balance_before)))
    ∧ ((parseInstruction c1rAccounts c1rInstr 0).status_code = "AP00"
      ∧ balSum ((parseInstruction c1rAccounts c1rInstr 0).accounts.map
            (fun a => a.balance))
          ≠ balSum ((parseInstruction c1rAccounts c1rInstr 0).accounts.map
            (fun a => a.balance_before))) :=
  ⟨⟨by rfl, by decide⟩, ⟨by rfl, by decide⟩, ⟨by rfl, by decide⟩⟩

/-- Snapshot of the spec's success scenario for the C1 witness. -/
def c1wAccounts : List (Option JsAccount) :=
  [some { id := some "N90394", balance := JsBal.num 1000, currency := some "USD" },
   some { id := some "N9122", balance := JsBal.num 500, currency := some "USD" }]

/-- Instruction of the spec's success scenario. -/
def c1wInstr : String := "DEBIT 500 USD FROM ACCOUNT N90394 FOR CREDIT TO ACCOUNT N9122"

theorem C1_witness :
    balSum ((parseInstruction c1wAccounts c1wInstr 0).accounts.map (fun a => a.balance))
      = balSum ((parseInstruction c1wAccounts c1wInstr 0).accounts.map
          (fun a => a.balance_before)) :=
  C1_conservation_exact_regime c1wAccounts c1wInstr 0 500 (by decide) (by rfl) (by rfl)
    (by
      intro ja hja s hs hrole
      simp only [c1wAccounts, List.mem_cons, List.not_mem_nil, or_false] at hja
      rcases hja with h | h
      · injection h with h
        subst h
        exact ⟨1000, rfl, by norm_num⟩
      · injection h with h
        subst h
        exact ⟨500, rfl, by norm_num⟩)

/-! ### C6: date validation and the pending/immediate boundary -/

/-- The source's leap-year test agrees with the spec's wording of the
Gregorian rule. -/
theorem isLeapYear_eq_specLeap (y : Nat) : isLeapYear y = specLeap y := by
  rw [Bool.eq_iff_iff]
  simp [isLeapYear, specLeap]
  omega

/-- The source's month table agrees with the spec's wording. -/
theorem getDaysInMonth_eq_specMonthLen (y m : Nat) :
    getDaysInMonth y m = specMonthLen y m := by
  rcases m with _ | _ | _ | _ | _ | _ | _ | _ | _ | _ | _ | _ | _ | n <;>
    simp [getDaysInMonth, specMonthLen, isLeapYear_eq_specLeap]

/-- `parseInt` on four digit characters. -/
theorem digitsVal_four (a b c d : Char) :
    digitsVal [a, b, c, d] = digit4 a b c d := by
  simp only [digitsVal, digit4, List.foldl]
  omega

/-- `parseInt` on two digit characters. -/
theorem digitsVal_two (a b : Char) : digitsVal [a, b] = digit2 a b := by
  simp only [digitsVal, digit2, List.foldl]
  omega

/-- With a 10-character token of the right shape (dashes in place, all
digit positions digits), `parseUtcDateOnly` reduces to its range checks. -/
theorem parseUtc_reduce (s : String) {y1 y2 y3 y4 sep1 mo1 mo2 sep2 da1 da2 : Char}
    (hcs : s.toList = [y1, y2, y3, y4, sep1, mo1, mo2, sep2, da1, da2])
    (hsep1 : sep1 = '-') (hsep2 : sep2 = '-')
    (hy1 : isDigitCode y1 = true) (hy2 : isDigitCode y2 = true)
    (hy3 : isDigitCode y3 = true) (hy4 : isDigitCode y4 = true)
    (hb1 : isDigitCode mo1 = true) (hb2 : isDigitCode mo2 = true)
    (hc1 : isDigitCode da1 = true) (hc2 : isDigitCode da2 = true) :
    parseUtcDateOnly s
      = if digit2 mo1 mo2 < 1 ∨ 12 < digit2 mo1 mo2 then none
        else if digit2 da1 da2 < 1
            ∨ specMonthLen (digit4 y1 y2 y3 y4) (digit2 mo1 mo2) < digit2 da1 da2 then none
        else some (dateUtcMs (digit4 y1 y2 y3 y4) (digit2 mo1 mo2) (digit2 da1 da2)) := by
  have hlen : ¬ (s.toList.length ≠ 10) := by rw [hcs]; simp
  have hdash : ¬ (s.toList.getD 4 ' ' ≠ '-' ∨ s.toList.getD 7 ' ' ≠ '-') := by
    rw [hcs]; simp [hsep1, hsep2]
  have hdig : ¬ ¬ (isAllDigitsL (s.toList.take 4) ∧ isAllDigitsL ((s.toList.drop 5).take 2)
      ∧ isAllDigitsL ((s.toList.drop 8).take 2)) := by
    rw [hcs]
    simp [isAllDigitsL, hy1, hy2, hy3, hy4, hb1, hb2, hc1, hc2]
  have e1 : s.toList.take 4 = [y1, y2, y3, y4] := by rw [hcs]; rfl
  have e2 : (s.toList.drop 5).take 2 = [mo1, mo2] := by rw [hcs]; rfl
  have e3 : (s.toList.drop 8).take 2 = [da1, da2] := by rw [hcs]; rfl
  simp only [parseUtcDateOnly]
  rw [if_neg hlen, if_neg hdash, if_neg hdig, e1, e2, e3]
  simp only [digitsVal_four, digitsVal_two, getDaysInMonth_eq_specMonthLen]

/-- The source's strict date validation succeeds exactly on the spec's
calendar-valid tokens, and then yields the `Date.UTC` value of the token's
digits; the digits are then in calendar range. -/
theorem parseUtc_master (s : String) :
    (specValidDate s = false → parseUtcDateOnly s = none)
      ∧ (specValidDate s = true →
          parseUtcDateOnly s = some (dateUtcMs (dateY s) (dateM s) (dateD s))
            ∧ 1 ≤ dateM s ∧ dateM s ≤ 12 ∧ 1 ≤ dateD s
            ∧ dateD s ≤ specMonthLen (dateY s) (dateM s) ∧ dateY s ≤ 9999) := by
  rcases hcs : s.toList with - | ⟨y1, - | ⟨y2, - | ⟨y3, - | ⟨y4, - | ⟨sep1,
    - | ⟨mo1, - | ⟨mo2, - | ⟨sep2, - | ⟨da1, - | ⟨da2, rest⟩⟩⟩⟩⟩⟩⟩⟩⟩⟩
  case nil =>
    refine ⟨fun _ => ?_, fun h => absurd h (by simp [specValidDate, hcs, show s.data = _ from hcs])⟩
    have hlen : s.toList.length ≠ 10 := by rw [hcs]; simp
    simp only [parseUtcDateOnly]
    rw [if_pos hlen]
  case cons.nil =>
    refine ⟨fun _ => ?_, fun h => absurd h (by simp [specValidDate, hcs, show s.data = _ from hcs])⟩
    have hlen : s.toList.length ≠ 10 := by rw [hcs]; simp
    simp only [parseUtcDateOnly]
    rw [if_pos hlen]
  case cons.cons.nil =>
    refine ⟨fun _ => ?_, fun h => absurd h (by simp [specValidDate, hcs, show s.data = _ from hcs])⟩
    have hlen : s.toList.length ≠ 10 := by rw [hcs]; simp
    simp only [parseUtcDateOnly]
    rw [if_pos hlen]
  case cons.cons.cons.nil =>
    refine ⟨fun _ => ?_, fun h => absurd h (by simp [specValidDate, hcs, show s.data = _ from hcs])⟩
    have hlen : s.toList.length ≠ 10 := by rw [hcs]; simp
    simp only [parseUtcDateOnly]
    rw [if_pos hlen]
  case cons.cons.cons.cons.nil =>
    refine ⟨fun _ => ?_, fun h => absurd h (by simp [specValidDate, hcs, show s.data = _ from hcs])⟩
    have hlen : s.toList.length ≠ 10 := by rw [hcs]; simp
    simp only [parseUtcDateOnly]
    rw [if_pos hlen]
  case cons.cons.cons.cons.cons.nil =>
    refine ⟨fun _ => ?_, fun h => absurd h (by simp [specValidDate, hcs, show s.data = _ from hcs])⟩
    have hlen : s.toList.length ≠ 10 := by rw [hcs]; simp
    simp only [parseUtcDateOnly]
    rw [if_pos hlen]
  case cons.cons.cons.cons.cons.cons.nil =>
    refine ⟨fun _ => ?_, fun h => absurd h (by simp [specValidDate, hcs, show s.data = _ from hcs])⟩
    have hlen : s.toList.length ≠ 10 := by rw [hcs]; simp
    simp only [parseUtcDateOnly]
    rw [if_pos hlen]
  case cons.cons.cons.cons.cons.cons.cons.nil =>
    refine ⟨fun _ => ?_, fun h => absurd h (by simp [specValidDate, hcs, show s.data = _ from hcs])⟩
    have hlen : s.toList.length ≠ 10 := by rw [hcs]; simp
    simp only [parseUtcDateOnly]
    rw [if_pos hlen]
  case cons.cons.cons.cons.cons.cons.cons.cons.nil =>
    refine ⟨fun _ => ?_, fun h => absurd h (by simp [specValidDate, hcs, show s.data = _ from hcs])⟩
    have hlen : s.toList.length ≠ 10 := by rw [hcs]; simp
    simp only [parseUtcDateOnly]
    rw [if_pos hlen]
  case cons.cons.cons.cons.cons.cons.cons.cons.cons.nil =>
    refine ⟨fun _ => ?_, fun h => absurd h (by simp [specValidDate, hcs, show s.data = _ from hcs])⟩
    have hlen : s.toList.length ≠ 10 := by rw [hcs]; simp
    simp only [parseUtcDateOnly]
    rw [if_pos hlen]
  case cons.cons.cons.cons.cons.cons.cons.cons.cons.cons =>
    cases rest with
    | cons r rs =>
      refine ⟨fun _ => ?_, fun h => absurd h (by simp [specValidDate, hcs, show s.data = _ from hcs])⟩
      have hlen : s.toList.length ≠ 10 := by rw [hcs]; simp
      simp only [parseUtcDateOnly]
      rw [if_pos hlen]
    | nil =>
      have hY : dateY s = digit4 y1 y2 y3 y4 := by simp [dateY, hcs, show s.data = _ from hcs]
      have hM : dateM s = digit2 mo1 mo2 := by simp [dateM, hcs, show s.data = _ from hcs]
      have hD : dateD s = digit2 da1 da2 := by simp [dateD, hcs, show s.data = _ from hcs]
      constructor
      · intro h
        simp only [specValidDate, hcs, show s.data = _ from hcs] at h
        by_cases hdash : sep1 = '-' ∧ sep2 = '-'
        case neg =>
          rcases not_and_or.mp hdash with hx | hx
          · have hdashT : s.toList.getD 4 ' ' ≠ '-' ∨ s.toList.getD 7 ' ' ≠ '-' := by
              rw [hcs]; exact Or.inl hx
            have hlen : ¬ (s.toList.length ≠ 10) := by rw [hcs]; simp
            simp only [parseUtcDateOnly]
            rw [if_neg hlen, if_pos hdashT]
          · have hdashT : s.toList.getD 4 ' ' ≠ '-' ∨ s.toList.getD 7 ' ' ≠ '-' := by
              rw [hcs]; exact Or.inr hx
            have hlen : ¬ (s.toList.length ≠ 10) := by rw [hcs]; simp
            simp only [parseUtcDateOnly]
            rw [if_neg hlen, if_pos hdashT]
        case pos =>
        obtain ⟨hsep1, hsep2⟩ := hdash
        by_cases hdig : isDigitCode y1 = true ∧ isDigitCode y2 = true ∧ isDigitCode y3 = true
            ∧ isDigitCode y4 = true ∧ isDigitCode mo1 = true ∧ isDigitCode mo2 = true
            ∧ isDigitCode da1 = true ∧ isDigitCode da2 = true
        case neg =>
          have hfail : ¬ (isAllDigitsL (s.toList.take 4)
              ∧ isAllDigitsL ((s.toList.drop 5).take 2)
              ∧ isAllDigitsL ((s.toList.drop 8).take 2)) := by
            intro hx
            apply hdig
            rw [hcs] at hx
            simp [isAllDigitsL] at hx
            tauto
          have hlen : ¬ (s.toList.length ≠ 10) := by rw [hcs]; simp
          have hdashF : ¬ (s.toList.getD 4 ' ' ≠ '-' ∨ s.toList.getD 7 ' ' ≠ '-') := by
            rw [hcs]; simp [hsep1, hsep2]
          simp only [parseUtcDateOnly]
          rw [if_neg hlen, if_neg hdashF, if_pos hfail]
        case pos =>
        obtain ⟨hy1, hy2, hy3, hy4, hb1, hb2, hc1, hc2⟩ := hdig
        rw [parseUtc_reduce s hcs hsep1 hsep2 hy1 hy2 hy3 hy4 hb1 hb2 hc1 hc2]
        by_cases hmon : 1 ≤ digit2 mo1 mo2 ∧ digit2 mo1 mo2 ≤ 12
        case neg =>
          rw [if_pos (by omega)]
        case pos =>
        by_cases hday : 1 ≤ digit2 da1 da2
            ∧ digit2 da1 da2 ≤ specMonthLen (digit4 y1 y2 y3 y4) (digit2 mo1 mo2)
        case neg =>
          rw [if_neg (by omega), if_pos (by omega)]
        case pos =>
        exfalso
        have hT : (isDigitCode y1 && isDigitCode y2 && isDigitCode y3 && isDigitCode y4
            && decide (sep1 = '-') && decide (sep2 = '-')
            && isDigitCode mo1 && isDigitCode mo2 && isDigitCode da1 && isDigitCode da2
            && decide (1 ≤ digit2 mo1 mo2) && decide (digit2 mo1 mo2 ≤ 12)
            && decide (1 ≤ digit2 da1 da2)
            && decide (digit2 da1 da2
                ≤ specMonthLen (digit4 y1 y2 y3 y4) (digit2 mo1 mo2))) = true := by
          simp [hy1, hy2, hy3, hy4, hb1, hb2, hc1, hc2, hsep1, hsep2,
            hmon.1, hmon.2, hday.1, hday.2]
        rw [hT] at h
        exact absurd h (by simp)
      · intro h
        simp only [specValidDate, hcs, Bool.and_eq_true, decide_eq_true_eq] at h
        obtain ⟨⟨⟨⟨⟨⟨⟨⟨⟨⟨⟨⟨⟨hy1, hy2⟩, hy3⟩, hy4⟩, hsep1⟩, hsep2⟩, hb1⟩, hb2⟩,
          hc1⟩, hc2⟩, hmo1⟩, hmo2⟩, hda1⟩, hda2⟩ := h
        rw [parseUtc_reduce s hcs hsep1 hsep2 hy1 hy2 hy3 hy4 hb1 hb2 hc1 hc2]
        rw [if_neg (by omega), if_neg (by omega), hY, hM, hD]
        refine ⟨rfl, by omega, by omega, by omega, by omega, ?_⟩
        simp only [isDigitCode, Bool.and_eq_true, decide_eq_true_eq] at hy1 hy2 hy3 hy4
        simp only [digit4]
        omega

/-- The leap-year test, as a proposition. -/
theorem isLeapYear_iff (y : Nat) :
    isLeapYear y = true ↔ ((y % 4 = 0 ∧ ¬ (y % 100 = 0)) ∨ y % 400 = 0) := by
  simp [isLeapYear]

/-- One year adds 365 or 366 days to the day count. -/
theorem daysBeforeYear_succ (y : Nat) :
    daysBeforeYear (y + 1) = daysBeforeYear y + (if isLeapYear y then 366 else 365) := by
  cases h : isLeapYear y with
  | false =>
    have hp : ¬ ((y % 4 = 0 ∧ ¬ (y % 100 = 0)) ∨ y % 400 = 0) := by
      rw [← isLeapYear_iff]
      simp [h]
    rw [if_neg (by simp)]
    simp only [daysBeforeYear, leapsBefore]
    omega
  | true =>
    have hp : (y % 4 = 0 ∧ ¬ (y % 100 = 0)) ∨ y % 400 = 0 := (isLeapYear_iff y).mp h
    rw [if_pos rfl]
    simp only [daysBeforeYear, leapsBefore]
    omega

/-- The year-level day count is monotone. -/
theorem daysBeforeYear_mono {y y' : Nat} (h : y ≤ y') :
    daysBeforeYear y ≤ daysBeforeYear y' := by
  induction y', h using Nat.le_induction with
  | base => exact Nat.le_refl _
  | succ n hn ih =>
    refine ih.trans ?_
    rw [daysBeforeYear_succ]
    split <;> omega

/-- Unfolding of the month-level day count. -/
theorem daysBeforeMonth_succ (y m : Nat) :
    daysBeforeMonth y (m + 1) = daysBeforeMonth y m + getDaysInMonth y m := by
  cases m with
  | zero => simp [daysBeforeMonth, getDaysInMonth]
  | succ n => rfl

/-- The month-level day count is monotone. -/
theorem daysBeforeMonth_mono (y : Nat) {m m' : Nat} (h : m ≤ m') :
    daysBeforeMonth y m ≤ daysBeforeMonth y m' := by
  induction m', h using Nat.le_induction with
  | base => exact Nat.le_refl _
  | succ n hn ih =>
    refine ih.trans ?_
    rw [daysBeforeMonth_succ]
    omega

/-- Every month has at most 31 days. -/
theorem getDaysInMonth_le_31 (y m : Nat) : getDaysInMonth y m ≤ 31 := by
  rcases m with _ | _ | _ | _ | _ | _ | _ | _ | _ | _ | _ | _ | _ | n <;>
    simp [getDaysInMonth] <;> split <;> omega

/-- Every real month has at least 28 days. -/
theorem getDaysInMonth_ge_28 (y : Nat) {m : Nat} (h1 : 1 ≤ m) (h2 : m ≤ 12) :
    28 ≤ getDaysInMonth y m := by
  rcases m with _ | _ | _ | _ | _ | _ | _ | _ | _ | _ | _ | _ | _ | n <;>
    first
      | omega
      | (simp [getDaysInMonth]; done)
      | (simp [getDaysInMonth]; split <;> omega)
      | (simp [getDaysInMonth]; omega)

/-- The year's total of month lengths. -/
theorem daysBeforeMonth_13 (y : Nat) :
    daysBeforeMonth y 13 = if isLeapYear y then 366 else 365 := by
  cases h : isLeapYear y <;>
    simp [daysBeforeMonth, daysBeforeMonth_succ, getDaysInMonth, h]

/-- Any day of any real month stays within the year. -/
theorem day_lt_year (y : Nat) {m d : Nat} (hm1 : 1 ≤ m) (hm2 : m ≤ 12)
    (hd1 : 1 ≤ d) (hd31 : d ≤ 31) :
    daysBeforeMonth y m + (d - 1) < daysBeforeMonth y 13 := by
  by_cases hm : m ≤ 11
  · have h1 : daysBeforeMonth y (m + 2) ≤ daysBeforeMonth y 13 :=
      daysBeforeMonth_mono y (by omega)
    have h2 := daysBeforeMonth_succ y m
    have h3 : daysBeforeMonth y (m + 2) = daysBeforeMonth y (m + 1) + getDaysInMonth y (m + 1) :=
      daysBeforeMonth_succ y (m + 1)
    have h4 := getDaysInMonth_ge_28 y hm1 hm2
    have h5 := getDaysInMonth_ge_28 y (show 1 ≤ m + 1 by omega) (show m + 1 ≤ 12 by omega)
    omega
  · have hm12 : m = 12 := by omega
    subst hm12
    have h2 : daysBeforeMonth y 13 = daysBeforeMonth y 12 + getDaysInMonth y 12 :=
      daysBeforeMonth_succ y 12
    have h31 : getDaysInMonth y 12 = 31 := rfl
    omega

/-- A calendar day of year `y` comes before every day of year `y + 1`. -/
theorem dayNumber_lt_next_year (y : Nat) {m d : Nat} (hm1 : 1 ≤ m) (hm2 : m ≤ 12)
    (hd1 : 1 ≤ d) (hd31 : d ≤ 31) :
    dayNumber y m d < daysBeforeYear (y + 1) := by
  have h1 := day_lt_year y hm1 hm2 hd1 hd31
  have h2 := daysBeforeYear_succ y
  have h3 := daysBeforeMonth_13 y
  unfold dayNumber
  cases h : isLeapYear y <;> rw [h] at h2 h3 <;> simp at h2 h3 <;> omega

/-- A day of an earlier year has a smaller day number. -/
theorem dayNumber_lt_of_year_lt (y m d y' m' d' : Nat) (hyy : y < y')
    (hm1 : 1 ≤ m) (hm2 : m ≤ 12) (hd1 : 1 ≤ d) (hd31 : d ≤ 31) :
    dayNumber y m d < dayNumber y' m' d' := by
  have h1 := dayNumber_lt_next_year y hm1 hm2 hd1 hd31
  have h2 : daysBeforeYear (y + 1) ≤ daysBeforeYear y' := daysBeforeYear_mono (by omega)
  have h3 : daysBeforeYear y' ≤ dayNumber y' m' d' := by unfold dayNumber; omega
  omega

/-- Within a year, a day of an earlier month has a smaller day number. -/
theorem dayNumber_lt_in_year (y m d m' d' : Nat) (hmm : m < m')
    (hd1 : 1 ≤ d) (hdm : d ≤ getDaysInMonth y m) :
    dayNumber y m d < dayNumber y m' d' := by
  have h2 := daysBeforeMonth_succ y m
  have h3 : daysBeforeMonth y (m + 1) ≤ daysBeforeMonth y m' :=
    daysBeforeMonth_mono y (by omega)
  unfold dayNumber
  omega

/-- For valid dates, the day-number order coincides with the calendar
(lexicographic) order. -/
theorem dayNumber_lt_iff_calLater {y m d ty tm td : Nat}
    (hm1 : 1 ≤ m) (hm2 : m ≤ 12) (hd1 : 1 ≤ d) (hdm : d ≤ getDaysInMonth y m)
    (htm1 : 1 ≤ tm) (htm2 : tm ≤ 12) (htd1 : 1 ≤ td) (htdm : td ≤ getDaysInMonth ty tm) :
    dayNumber ty tm td < dayNumber y m d ↔ calLaterB y m d ty tm td = true := by
  constructor
  · intro hlt
    by_contra hcal
    simp only [calLaterB, decide_eq_true_eq] at hcal
    rcases Nat.lt_trichotomy y ty with hy | hy | hy
    · have := dayNumber_lt_of_year_lt y m d ty tm td hy hm1 hm2 hd1
        (hdm.trans (getDaysInMonth_le_31 y m))
      omega
    · subst hy
      rcases Nat.lt_trichotomy m tm with hm | hm | hm
      · have := dayNumber_lt_in_year y m d tm td hm hd1 hdm
        omega
      · subst hm
        unfold dayNumber at hlt
        omega
      · omega
    · omega
  · intro hcal
    simp only [calLaterB, decide_eq_true_eq] at hcal
    rcases hcal with hy | ⟨hy, hmor⟩
    · exact dayNumber_lt_of_year_lt ty tm td y m d hy htm1 htm2 htd1
        (htdm.trans (getDaysInMonth_le_31 ty tm))
    · subst hy
      rcases hmor with hm | ⟨hm, hd⟩
      · exact dayNumber_lt_in_year ty tm td m d hm htd1 htdm
      · subst hm
        unfold dayNumber
        omega

/-- `Date.UTC` values compare exactly as the underlying day numbers. -/
theorem dateUtcMs_lt_iff (y m d y' m' d' : Nat) :
    dateUtcMs y m d < dateUtcMs y' m' d'
      ↔ dayNumber (jsYear y) m d < dayNumber (jsYear y') m' d' := by
  unfold dateUtcMs
  omega

/-- Years from 100 on are taken literally by `Date.UTC`. -/
theorem jsYear_of_ge {y : Nat} (h : 100 ≤ y) : jsYear y = y := by
  unfold jsYear
  rw [if_neg (by omega)]

/-- Years 0-99 are read as 1900-1999 by `Date.UTC`. -/
theorem jsYear_of_le {y : Nat} (h : y ≤ 99) : jsYear y = y + 1900 := by
  unfold jsYear
  rw [if_pos (by omega)]

/-- A `finalResult` is the pending `AP01` response exactly when the pending
flag is set. -/
theorem finalResult_pending_iff (v : Validated) (inv : List ResAccount) (pend : Bool)
    (e : Option String) :
    ((finalResult v inv pend e).status = "pending"
        ∧ (finalResult v inv pend e).status_code = "AP01") ↔ pend = true := by
  cases pend with
  | true => exact ⟨fun _ => rfl, fun _ => ⟨rfl, rfl⟩⟩
  | false => simp [finalResult]

/-- A non-pending `finalResult` is the successful `AP00` response. -/
theorem finalResult_false_props (v : Validated) (inv : List ResAccount)
    (e : Option String) :
    (finalResult v inv false e).status = "successful"
      ∧ (finalResult v inv false e).status_code = "AP00" :=
  ⟨rfl, rfl⟩

/-- C6: with all pre-date checks passing and the clock injected as the UTC
calendar day `ty-tm-td` (a valid date in year 2000 or later, as the real
clock is), the date stage behaves as specified: the source's strict
`YYYY-MM-DD` validation coincides with the spec's calendar rule (first
conjunct); an invalid supplied token yields `DT01`; an absent (or
emptied-by-punctuation) token yields immediate `AP00`; and a valid token is
pending `AP01` exactly when its calendar day is strictly later than the
injected current day, settling `AP00` otherwise. -/
theorem C6_date_stage (accounts : List (Option JsAccount)) (instr : String)
    (ty tm td : Nat) (p : Parsed) (v : Validated) (fd fc : JsAccount)
    (hg : grammarMatch (tokenizeNormalizedInstruction (normalizeWhitespace instr)) = .ok p)
    (hf : fieldValidate p = .ok v)
    (hd : lastMatch accounts v.debitAccountId = some fd)
    (hc : lastMatch accounts v.creditAccountId = some fc)
    (hcur1 : jsToUpper (fd.currency.getD "") = jsToUpper (fc.currency.getD ""))
    (hcur2 : jsToUpper (fd.currency.getD "") = v.currencyUpper)
    (hne : v.debitAccountId ≠ v.creditAccountId)
    (hfunds : insufficientFunds fd.balance v.amount = false)
    (htm1 : 1 ≤ tm) (htm2 : tm ≤ 12) (htd1 : 1 ≤ td)
    (htdm : td ≤ getDaysInMonth ty tm) (hty : 2000 ≤ ty) :
    (∀ s, (parseUtcDateOnly s).isSome = specValidDate s)
      ∧ (∀ ds, v.dateToken = some ds → ds ≠ "" → specValidDate ds = false →
          (parseInstruction accounts instr (dateUtcMs ty tm td)).status_code = "DT01"
            ∧ (parseInstruction accounts instr (dateUtcMs ty tm td)).status = "failed")
      ∧ ((v.dateToken = none ∨ v.dateToken = some "") →
          (parseInstruction accounts instr (dateUtcMs ty tm td)).status_code = "AP00"
            ∧ (parseInstruction accounts instr (dateUtcMs ty tm td)).status = "successful")
      ∧ (∀ ds, v.dateToken = some ds → ds ≠ "" → specValidDate ds = true →
          (((parseInstruction accounts instr (dateUtcMs ty tm td)).status = "pending"
              ∧ (parseInstruction accounts instr
                  (dateUtcMs ty tm td)).status_code = "AP01")
            ↔ calLaterB (dateY ds) (dateM ds) (dateD ds) ty tm td = true)
          ∧ (calLaterB (dateY ds) (dateM ds) (dateD ds) ty tm td = false →
              (parseInstruction accounts instr (dateUtcMs ty tm td)).status = "successful"
                ∧ (parseInstruction accounts instr
                    (dateUtcMs ty tm td)).status_code = "AP00")) := by
  have hdate : ∀ T : Int, resolve accounts v T
      = (match optOrNull v.dateToken with
        | some ds =>
          match parseUtcDateOnly ds with
          | none =>
            { type := some v.type, amount := some (v.amount : Int)
              currency := some v.currencyUpper
              debit_account := some v.debitAccountId
              credit_account := some v.creditAccountId
              execute_by := some ds, status := "failed"
              status_reason := "Invalid date format", status_code := "DT01"
              accounts := involvedAccounts accounts v.debitAccountId v.creditAccountId }
          | some val =>
            finalResult v (involvedAccounts accounts v.debitAccountId v.creditAccountId)
              (decide (T < val)) (some ds)
        | none =>
          finalResult v (involvedAccounts accounts v.debitAccountId v.creditAccountId)
            false none) := by
    intro T
    simp only [resolve, hd, hc]
    rw [if_neg (by push_neg; exact ⟨hcur1, hcur2⟩), if_neg hne, if_neg (by simp [hfunds])]
  rw [parse_of_stages_ok accounts (dateUtcMs ty tm td) hg hf]
  refine ⟨?_, ?_, ?_, ?_⟩
  · intro s
    cases h : specValidDate s with
    | false => rw [(parseUtc_master s).1 h]; rfl
    | true => rw [((parseUtc_master s).2 h).1]; rfl
  · intro ds hds hdsne hbad
    rw [hdate, hds]
    simp only [optOrNull]
    rw [if_neg hdsne]
    dsimp only
    rw [(parseUtc_master ds).1 hbad]
    exact ⟨rfl, rfl⟩
  · intro hnone
    rcases hnone with hnone | hnone
    · rw [hdate, hnone]
      exact ⟨rfl, rfl⟩
    · rw [hdate, hnone]
      simp only [optOrNull, if_true]
      exact ⟨rfl, rfl⟩
  · intro ds hds hdsne hvalid
    obtain ⟨hsome, hmo1, hmo2, hda1, hdamax, hy4⟩ := (parseUtc_master ds).2 hvalid
    have hdamax' : dateD ds ≤ getDaysInMonth (dateY ds) (dateM ds) := by
      rw [getDaysInMonth_eq_specMonthLen]; exact hdamax
    have hbridge : (dateUtcMs ty tm td
          < dateUtcMs (dateY ds) (dateM ds) (dateD ds))
        ↔ calLaterB (dateY ds) (dateM ds) (dateD ds) ty tm td = true := by
      by_cases hyr : 100 ≤ dateY ds
      · rw [dateUtcMs_lt_iff, jsYear_of_ge (show 100 ≤ ty by omega), jsYear_of_ge hyr]
        exact dayNumber_lt_iff_calLater hmo1 hmo2 hda1 hdamax' htm1 htm2 htd1 htdm
      · push_neg at hyr
        constructor
        · intro hlt
          exfalso
          rw [dateUtcMs_lt_iff, jsYear_of_ge (show 100 ≤ ty by omega),
            jsYear_of_le (by omega)] at hlt
          have hearly := dayNumber_lt_of_year_lt (dateY ds + 1900) (dateM ds) (dateD ds)
            ty tm td (by omega) hmo1 hmo2 hda1
            (hdamax'.trans (getDaysInMonth_le_31 (dateY ds) (dateM ds)))
          omega
        · intro hcal
          exfalso
          simp only [calLaterB, decide_eq_true_eq] at hcal
          omega
    rw [hdate, hds]
    simp only [optOrNull]
    rw [if_neg hdsne]
    dsimp only
    rw [hsome]
    dsimp only
    constructor
    · rw [finalResult_pending_iff, decide_eq_true_eq, hbridge]
    · intro hfalse
      have hnotlt : ¬ (dateUtcMs ty tm td < dateUtcMs (dateY ds) (dateM ds) (dateD ds)) := by
        rw [hbridge, hfalse]
        simp
      rw [decide_eq_false hnotlt]
      exact finalResult_false_props v _ (some ds)

/-- Snapshot for the C6 witness. -/
def c6wAccounts : List (Option JsAccount) :=
  [some { id := some "a", balance := JsBal.num 100, currency := some "USD" },
   some { id := some "b", balance := JsBal.num 0, currency := some "USD" }]

/-- Future-dated instruction for the C6 witness. -/
def c6wInstr : String :=
  "DEBIT 50 USD FROM ACCOUNT a FOR CREDIT TO ACCOUNT b ON 2100-01-01"

/-- Parsed fields of the C6 witness instruction. -/
def c6parsed : Parsed :=
  { type := "DEBIT", amountToken := "50", currencyToken := "USD",
    debitAccountId := "a", creditAccountId := "b", dateToken := some "2100-01-01" }

/-- Validated fields of the C6 witness instruction. -/
def c6valid : Validated :=
  { type := "DEBIT", amount := 50, currencyUpper := "USD",
    debitAccountId := "a", creditAccountId := "b", dateToken := some "2100-01-01" }

/-- Debit account of the C6 witness. -/
def c6fd : JsAccount := { id := some "a", balance := JsBal.num 100, currency := some "USD" }

/-- Credit account of the C6 witness. -/
def c6fc : JsAccount := { id := some "b", balance := JsBal.num 0, currency := some "USD" }

theorem C6_witness :
    (parseInstruction c6wAccounts c6wInstr (dateUtcMs 2026 10 11)).status = "pending"
      ∧ (parseInstruction c6wAccounts c6wInstr (dateUtcMs 2026 10 11)).status_code
          = "AP01" :=
  ((C6_date_stage c6wAccounts c6wInstr 2026 10 11 c6parsed c6valid c6fd c6fc
      (by rfl) (by rfl) (by rfl) (by rfl) (by rfl) (by rfl) (by decide) (by rfl)
      (by decide) (by decide) (by decide) (by decide) (by decide)).2.2.2
    "2100-01-01" rfl (by decide) (by rfl)).1.mpr (by decide)

end PaymentCore
